import Mathlib

/-!
Shallow embedding of the four-step MIDI drum-sequencer sketches of the
ongaku_electronics_lab repository.

The repository contains three complete sketches sharing one scheduling core:

* `four_step_sequencer.ino` — single voice, fixed tempo (BPM 127), USB MIDI;
* `four_step_multi_voice_sequencer_midi_out.ino` (and the identically
  structured unnamed multi-voice USB sketch) — four voices, fixed tempo,
  wraparound-safe `(int32_t)(now - deadline) >= 0` deadline tests;
* `four_step_multi_voice_sequencer_tempo_swing.ino` — four voices, tempo and
  swing sampled from potentiometers each tick, plain `now >= deadline` tests.

Timestamps are uint32 milliseconds, modelled as `Nat` reduced mod `2 ^ 32` at
every arithmetic store.  GPIO reads, analog sampling and the MIDI byte
transport are external collaborators: raw levels, debounced edges and the pot
readings enter the model as inputs of each tick, and MIDI output is an event
list.  The float tempo/swing expressions of the swing sketch are modelled
over `ℚ` with truncation toward zero for the C float-to-integer casts.
-/

/-- Size of the unsigned 32-bit counter used for millisecond timestamps. -/
def U32 : Nat := 4294967296

/-- Reduction of an unbounded natural into the uint32 range. -/
def u32 (x : Nat) : Nat := x % U32

/-- Unsigned 32-bit subtraction `a - b`, as computed by C uint32 arithmetic. -/
def u32sub (a b : Nat) : Nat := (u32 a + (U32 - u32 b)) % U32

/-- Reinterpretation of a uint32 value as a signed int32 (two's complement). -/
def toInt32 (x : Nat) : Int :=
  if u32 x < 2147483648 then (u32 x : Int) else (u32 x : Int) - (U32 : Int)

/-- The wraparound-safe deadline test `(int32_t)(now - t) >= 0` used by the
fixed-tempo sketches. -/
def i32due (now t : Nat) : Bool := decide (0 ≤ toInt32 (u32sub now t))

theorem u32sub_self (a : Nat) : u32sub a a = 0 := by
  unfold u32sub u32 U32
  omega

theorem u32sub_of_le {a b : Nat} (hba : b ≤ a) (ha : a < U32) : u32sub a b = a - b := by
  unfold u32sub u32 U32 at *
  omega

/-! ### Debouncer

`pollEdgeFalling` from `four_step_sequencer.ino` lines 93-108 (the same
routine appears in the other sketches as `pollEdgeFalling` / `pollFalling`).
The raw pin level `r` is an input; `HIGH` is `true`, `LOW` is `false`. -/

structure Btn where
  stable : Bool
  lastRead : Bool
  lastChangeMs : Nat
deriving Repr, DecidableEq

/-- One debouncer poll: returns the updated button state and whether a
falling (HIGH to LOW) edge was committed on this call. -/
def pollEdgeFalling (b : Btn) (r : Bool) (now : Nat) (debounceMs : Nat) : Btn × Bool :=
  let b1 := if r ≠ b.lastRead then { b with lastChangeMs := now, lastRead := r } else b
  if debounceMs < u32sub now b1.lastChangeMs then
    if r ≠ b1.stable then
      ({ b1 with stable := r }, b1.stable && !r)
    else (b1, false)
  else (b1, false)

/-- Run a sequence of polls (time, raw level); also counts reported edges. -/
def runPolls (w : Nat) (b : Btn) : List (Nat × Bool) → Btn × Nat
  | [] => (b, 0)
  | p :: rest =>
    let x := pollEdgeFalling b p.2 p.1 w
    let y := runPolls w x.1 rest
    (y.1, (if x.2 then 1 else 0) + y.2)

theorem poll_b1_stable (b : Btn) (r : Bool) (now : Nat) :
    (if r ≠ b.lastRead then { b with lastChangeMs := now, lastRead := r } else b).stable
      = b.stable := by
  split <;> rfl

theorem poll_id (b : Btn) (r : Bool) (now w : Nat) (h1 : b.lastRead = r) (h2 : b.stable = r) :
    pollEdgeFalling b r now w = (b, false) := by
  simp [pollEdgeFalling, h1, h2]

theorem poll_noflip_closed (b : Btn) (r : Bool) (now w : Nat) (h1 : b.lastRead = r)
    (hw : ¬ w < u32sub now b.lastChangeMs) :
    pollEdgeFalling b r now w = (b, false) := by
  simp [pollEdgeFalling, h1, hw]

theorem poll_flip (b : Btn) (r : Bool) (now w : Nat) (h1 : ¬ r = b.lastRead) :
    pollEdgeFalling b r now w = ({ b with lastChangeMs := now, lastRead := r }, false) := by
  simp [pollEdgeFalling, h1, u32sub_self]

theorem poll_commit_falling (b : Btn) (now w : Nat) (h1 : b.lastRead = false)
    (hs : b.stable = true) (hw : w < u32sub now b.lastChangeMs) :
    pollEdgeFalling b false now w = ({ b with stable := false }, true) := by
  simp [pollEdgeFalling, h1, hs, hw]

theorem poll_commit_rising (b : Btn) (now w : Nat) (h1 : b.lastRead = true)
    (hs : b.stable = false) (hw : w < u32sub now b.lastChangeMs) :
    pollEdgeFalling b true now w = ({ b with stable := true }, false) := by
  simp [pollEdgeFalling, h1, hs, hw]

theorem poll_true_elim (b : Btn) (r : Bool) (now w : Nat) :
    (pollEdgeFalling b r now w).2 = true →
      b.stable = true ∧ r = false ∧ (pollEdgeFalling b r now w).1.stable = false := by
  by_cases h1 : r = b.lastRead
  · by_cases hw : w < u32sub now b.lastChangeMs
    · by_cases h2 : r = b.stable
      · rw [poll_id b r now w h1.symm h2.symm]; simp
      · cases r with
        | false =>
          have hs : b.stable = true := by
            cases hb : b.stable with
            | false => exact absurd (hb ▸ rfl) h2
            | true => rfl
          rw [poll_commit_falling b now w h1.symm hs hw]
          exact fun _ => ⟨hs, rfl, rfl⟩
        | true =>
          have hs : b.stable = false := by
            cases hb : b.stable with
            | true => exact absurd (hb ▸ rfl) h2
            | false => rfl
          rw [poll_commit_rising b now w h1.symm hs hw]
          simp
    · rw [poll_noflip_closed b r now w h1.symm hw]; simp
  · rw [poll_flip b r now w h1]; simp

theorem runPolls_const (w : Nat) (r : Bool) :
    ∀ (ps : List (Nat × Bool)) (b : Btn), (∀ p ∈ ps, p.2 = r) →
      b.lastRead = r → b.stable = r → runPolls w b ps = (b, 0) := by
  intro ps
  induction ps with
  | nil => intro b _ _ _; rfl
  | cons p rest ih =>
    intro b hall h1 h2
    have hp2 : p.2 = r := hall p (List.mem_cons_self p rest)
    simp only [runPolls, hp2, poll_id b r p.1 w h1 h2,
      ih b (fun q hq => hall q (List.mem_cons_of_mem p hq)) h1 h2]
    simp

theorem runPolls_append (w : Nat) (xs ys : List (Nat × Bool)) :
    ∀ b : Btn, runPolls w b (xs ++ ys) =
      ((runPolls w (runPolls w b xs).1 ys).1,
       (runPolls w b xs).2 + (runPolls w (runPolls w b xs).1 ys).2) := by
  induction xs with
  | nil => intro b; simp [runPolls]
  | cons x rest ih =>
    intro b
    simp only [List.cons_append, runPolls, List.append_eq, ih, Nat.add_assoc]

theorem press_run (w t1 : Nat) :
    ∀ ts : List Nat, (∃ t ∈ ts, w < u32sub t t1) →
      runPolls w ⟨true, false, t1⟩ (ts.map fun t => (t, false)) = (⟨false, false, t1⟩, 1) := by
  intro ts
  induction ts with
  | nil => intro h; exact absurd h (by simp)
  | cons t rest ih =>
    intro h
    by_cases hw : w < u32sub t t1
    · simp only [List.map_cons, runPolls,
        poll_commit_falling ⟨true, false, t1⟩ t w rfl rfl hw]
      rw [runPolls_const w false (rest.map fun t => (t, false)) ⟨false, false, t1⟩
        (by simp) rfl rfl]
      simp
    · have hrest : ∃ u ∈ rest, w < u32sub u t1 := by
        obtain ⟨u, hu, hwu⟩ := h
        rcases List.mem_cons.mp hu with h | h
        · exact absurd (h ▸ hwu) hw
        · exact ⟨u, h, hwu⟩
      simp only [List.map_cons, runPolls,
        poll_noflip_closed ⟨true, false, t1⟩ false t w rfl hw, ih hrest]
      simp

theorem release_run (w u1 : Nat) :
    ∀ us : List Nat, (∃ u ∈ us, w < u32sub u u1) →
      runPolls w ⟨false, true, u1⟩ (us.map fun u => (u, true)) = (⟨true, true, u1⟩, 0) := by
  intro us
  induction us with
  | nil => intro h; exact absurd h (by simp)
  | cons u rest ih =>
    intro h
    by_cases hw : w < u32sub u u1
    · simp only [List.map_cons, runPolls,
        poll_commit_rising ⟨false, true, u1⟩ u w rfl rfl hw]
      rw [runPolls_const w true (rest.map fun u => (u, true)) ⟨true, true, u1⟩
        (by simp) rfl rfl]
      simp
    · have hrest : ∃ v ∈ rest, w < u32sub v u1 := by
        obtain ⟨v, hv, hwv⟩ := h
        rcases List.mem_cons.mp hv with hh | hh
        · exact absurd (hh ▸ hwv) hw
        · exact ⟨v, hh, hwv⟩
      simp only [List.map_cons, runPolls,
        poll_noflip_closed ⟨false, true, u1⟩ true u w rfl hw, ih hrest]
      simp

theorem quiet_run (L : Bool) (w T : Nat) (hTw : T + w < U32) :
    ∀ (ps : List (Nat × Bool)) (b : Btn),
      b.stable = L →
      (b.lastRead = L ∨ (T ≤ b.lastChangeMs ∧ ∀ p ∈ ps, b.lastChangeMs ≤ p.1)) →
      (∀ p ∈ ps, T ≤ p.1 ∧ p.1 ≤ T + w) →
      List.Pairwise (fun p q : Nat × Bool => p.1 ≤ q.1) ps →
      (runPolls w b ps).1.stable = L ∧ (runPolls w b ps).2 = 0 := by
  intro ps
  induction ps with
  | nil => intro b hs _ _ _; exact ⟨hs, rfl⟩
  | cons p rest ih =>
    intro b hs hinv hbnd hpw
    obtain ⟨t, r⟩ := p
    have hbt : T ≤ t ∧ t ≤ T + w := hbnd (t, r) (List.mem_cons_self _ _)
    have hbnd2 : ∀ q ∈ rest, T ≤ q.1 ∧ q.1 ≤ T + w :=
      fun q hq => hbnd q (List.mem_cons_of_mem _ hq)
    have hpw2 : List.Pairwise (fun p q : Nat × Bool => p.1 ≤ q.1) rest := hpw.of_cons
    have hhead : ∀ q ∈ rest, t ≤ q.1 := fun q hq => (List.pairwise_cons.mp hpw).1 q hq
    by_cases hflip : r = b.lastRead
    · by_cases hrL : r = L
      · simp only [runPolls, poll_id b r t w hflip.symm (by rw [hs, hrL])]
        have hrec := ih b hs (Or.inl (hflip.symm.trans hrL)) hbnd2 hpw2
        simpa using hrec
      · have hrd : T ≤ b.lastChangeMs ∧ ∀ q ∈ (t, r) :: rest, b.lastChangeMs ≤ q.1 := by
          rcases hinv with hl | hr
          · exact absurd (hflip.trans hl) hrL
          · exact hr
        have hct : b.lastChangeMs ≤ t := hrd.2 (t, r) (List.mem_cons_self _ _)
        have hnw : ¬ w < u32sub t b.lastChangeMs := by
          rw [u32sub_of_le hct (lt_of_le_of_lt hbt.2 hTw)]
          have := hrd.1
          have := hbt.2
          omega
        simp only [runPolls, poll_noflip_closed b r t w hflip.symm hnw]
        have hrec := ih b hs
          (Or.inr ⟨hrd.1, fun q hq => hrd.2 q (List.mem_cons_of_mem _ hq)⟩) hbnd2 hpw2
        simpa using hrec
    · simp only [runPolls, poll_flip b r t w hflip]
      have hrec := ih { b with lastChangeMs := t, lastRead := r } hs
        (Or.inr ⟨hbt.1, hhead⟩) hbnd2 hpw2
      simpa using hrec

/-- C7 (corrected): the claim constrains only the times of the raw-level
flips; the code commits a stable change at the first poll that finds the
level held different from `stable` for longer than the debounce window, even
if the flip itself happened in an arbitrarily short burst.  Here the raw
level flips exactly once, at time 0 (a flip span of 0 ms, shorter than the
20 ms window), yet the poll at time 30 reports a falling edge and `stable`
changes, contradicting the claim. -/
theorem C7_counterexample :
    runPolls 20 ⟨true, true, 0⟩ [(0, false), (30, false)] = (⟨false, false, 0⟩, 1) := by
  decide

/-- C7 (amended): for every initial debouncer state whose stable and last-read
levels are `L`, and every time-ordered sequence of polls that all occur within
a window of length at most the debounce threshold (so in particular all
raw-level flips do), the stable level still equals `L` after the sequence and
no poll reports an edge event. -/
theorem C7_debounce_stability_amended (L : Bool) (c w T : Nat) (ps : List (Nat × Bool))
    (hTw : T + w < U32)
    (hbnd : ∀ p ∈ ps, T ≤ p.1 ∧ p.1 ≤ T + w)
    (hsort : List.Pairwise (fun p q : Nat × Bool => p.1 ≤ q.1) ps) :
    (runPolls w ⟨L, L, c⟩ ps).1.stable = L ∧ (runPolls w ⟨L, L, c⟩ ps).2 = 0 :=
  quiet_run L w T hTw ps ⟨L, L, c⟩ rfl (Or.inl rfl) hbnd hsort

theorem C7_debounce_stability_amended_witness :
    (runPolls 20 ⟨true, true, 0⟩ [(100, false), (110, true), (115, false)]).1.stable = true ∧
      (runPolls 20 ⟨true, true, 0⟩ [(100, false), (110, true), (115, false)]).2 = 0 :=
  C7_debounce_stability_amended true 0 20 100 [(100, false), (110, true), (115, false)]
    (by decide) (by decide) (by decide)

/-- C8 (confirmed): a single clean press-then-release — the raw level read LOW
from time `t1` with some poll more than the debounce window after `t1`, then
read HIGH from time `u1` with some poll more than the window after `u1` —
reports exactly one edge over the whole sequence, and the final stable level
is HIGH again, so no event was reported at the LOW-to-HIGH commit; moreover
(last conjunct) any poll that reports an edge does so exactly when the
committed stable transition is HIGH to LOW. -/
theorem C8_single_clean_press (w c t1 u1 : Nat) (ts us : List Nat)
    (hpress : ∃ t ∈ ts, w < u32sub t t1)
    (hrel : ∃ u ∈ us, w < u32sub u u1) :
    (runPolls w ⟨true, true, c⟩
        ((t1, false) :: (ts.map fun t => (t, false)) ++ (u1, true) :: (us.map fun u => (u, true)))).2
      = 1 ∧
    (runPolls w ⟨true, true, c⟩
        ((t1, false) :: (ts.map fun t => (t, false)) ++ (u1, true) :: (us.map fun u => (u, true)))).1.stable
      = true ∧
    ∀ (b : Btn) (r : Bool) (now : Nat),
      (pollEdgeFalling b r now w).2 = true →
        b.stable = true ∧ r = false ∧ (pollEdgeFalling b r now w).1.stable = false := by
  have h1 : pollEdgeFalling ⟨true, true, c⟩ false t1 w = (⟨true, false, t1⟩, false) :=
    poll_flip _ _ _ _ (by simp)
  have h2 : pollEdgeFalling ⟨false, false, t1⟩ true u1 w = (⟨false, true, u1⟩, false) :=
    poll_flip _ _ _ _ (by simp)
  have hrun :
      runPolls w ⟨true, true, c⟩
        ((t1, false) :: (ts.map fun t => (t, false)) ++ (u1, true) :: (us.map fun u => (u, true)))
        = (⟨true, true, u1⟩, 1) := by
    simp only [runPolls, h1, List.append_eq]
    rw [runPolls_append, press_run w t1 ts hpress]
    simp only [runPolls, h2, release_run w u1 us hrel]
    simp
  refine ⟨by rw [hrun], by rw [hrun], fun b r now => poll_true_elim b r now w⟩

theorem C8_single_clean_press_witness :
    (runPolls 20 ⟨true, true, 0⟩
        ((0, false) :: ([25].map fun t => (t, false)) ++ (30, true) :: ([60].map fun u => (u, true)))).2
      = 1 ∧
    (runPolls 20 ⟨true, true, 0⟩
        ((0, false) :: ([25].map fun t => (t, false)) ++ (30, true) :: ([60].map fun u => (u, true)))).1.stable
      = true := by
  have h := C8_single_clean_press 20 0 0 30 [25] [60]
    ⟨25, by simp, by decide⟩ ⟨60, by simp, by decide⟩
  exact ⟨h.1, h.2.1⟩

/-! ### MIDI events and the multi-voice fixed-tempo sketches

`four_step_multi_voice_sequencer_midi_out.ino` and the unnamed USB
multi-voice sketch have identical sequencing logic and differ only in the
note table and MIDI channel, which are parameters `notes` and `ch` below
(DIN sketch: notes 60/65/72/75 on channel 0; USB sketch: 36/38/42/49 on
channel 9).  A tick's debounced button edges are inputs. -/

inductive MidiEv where
  | on (note vel ch : Nat)
  | off (note vel ch : Nat)
deriving Repr, DecidableEq

structure MVState where
  pattern : Nat → Nat → Bool
  currentVoice : Nat
  isPlaying : Bool
  stepIndex : Nat
  stepIntervalMs : Nat
  nextStepAtMs : Nat
  noteActive : Nat → Bool
  noteOffAtMs : Nat → Nat

structure MVIn where
  now : Nat
  instEdge : Bool
  stepEdges : Nat → Bool
  playEdge : Bool

/-- Gate clamp of the multi-voice sketches: `uint16_t gate = GATE_MS_BASE;
if (gate > stepIntervalMs) gate = (stepIntervalMs > 10) ? (stepIntervalMs
- 10) : stepIntervalMs;` — the uint32 value is truncated to uint16 on
assignment to `gate`. -/
def gateClampGuard (g I : Nat) : Nat :=
  if I < g then (if 10 < I then I - 10 else I) % 65536 else g

/-- Note-off pass of the multi-voice `runSequencer`, event side. -/
def mvOffEvents (notes : Nat → Nat) (ch : Nat) (s : MVState) (now : Nat) : List MidiEv :=
  (List.range 4).filterMap fun v =>
    if s.noteActive v = true ∧ i32due now (s.noteOffAtMs v) = true then
      some (.off (notes v) 0 ch)
    else none

/-- Note-off pass of the multi-voice `runSequencer`, state side. -/
def mvAfterOff (s : MVState) (now : Nat) : MVState :=
  { s with noteActive := fun v =>
      if v < 4 ∧ s.noteActive v = true ∧ i32due now (s.noteOffAtMs v) = true then false
      else s.noteActive v }

/-- Note-on pass of the multi-voice due-step branch, event side. -/
def mvOnEvents (notes : Nat → Nat) (ch : Nat) (s : MVState) : List MidiEv :=
  (List.range 4).filterMap fun v =>
    if s.pattern v s.stepIndex = true then some (.on (notes v) 110 ch) else none

/-- Note-on pass of the multi-voice due-step branch, state side, together
with the step advance and deadline re-arm that end the branch. -/
def mvAfterOn (s : MVState) (now : Nat) : MVState :=
  { s with
    noteActive := fun v =>
      if v < 4 ∧ s.pattern v s.stepIndex = true then true else s.noteActive v,
    noteOffAtMs := fun v =>
      if v < 4 ∧ s.pattern v s.stepIndex = true then
        u32 (now + gateClampGuard 120 s.stepIntervalMs)
      else s.noteOffAtMs v,
    stepIndex := (s.stepIndex + 1) &&& 3,
    nextStepAtMs := u32 (now + s.stepIntervalMs) }

/-- `runSequencer` of the multi-voice sketches. -/
def runSequencerMV (notes : Nat → Nat) (ch : Nat) (s : MVState) (now : Nat) :
    MVState × List MidiEv :=
  let s1 := mvAfterOff s now
  let e1 := mvOffEvents notes ch s now
  if s1.isPlaying = false then (s1, e1)
  else if i32due now s1.nextStepAtMs = true then
    (mvAfterOn s1 now, e1 ++ mvOnEvents notes ch s1)
  else (s1, e1)

/-- `handlePlayButton` of the multi-voice sketches; `edge` is the debounced
falling edge of the play button. -/
def mvHandlePlay (notes : Nat → Nat) (ch : Nat) (s : MVState) (edge : Bool) (now : Nat) :
    MVState × List MidiEv :=
  if edge = true then
    if s.isPlaying = false then
      ({ s with isPlaying := true, nextStepAtMs := u32 (now + s.stepIntervalMs) }, [])
    else
      ({ s with
          isPlaying := false
          noteActive := fun v =>
            if v < 4 ∧ s.noteActive v = true then false else s.noteActive v },
       (List.range 4).filterMap fun v =>
         if s.noteActive v = true then some (.off (notes v) 0 ch) else none)
  else (s, [])

/-- Button handlers of the multi-voice `loop()`: the instrument button
cycles the edited voice, the step buttons toggle the current voice's
pattern cells. -/
def mvButtons (s : MVState) (instEdge : Bool) (stepEdges : Nat → Bool) : MVState :=
  let s1 := if instEdge = true then { s with currentVoice := (s.currentVoice + 1) % 4 } else s
  { s1 with pattern := (fun v i =>
      if v = s1.currentVoice ∧ i < 4 ∧ stepEdges i = true then !(s1.pattern v i)
      else s1.pattern v i) }

/-- One pass of the multi-voice `loop()`: instrument button, step buttons,
play button, then the sequencer. -/
def mvTick (notes : Nat → Nat) (ch : Nat) (s : MVState) (inp : MVIn) : MVState × List MidiEv :=
  let p3 := mvHandlePlay notes ch (mvButtons s inp.instEdge inp.stepEdges) inp.playEdge inp.now
  let p4 := runSequencerMV notes ch p3.1 inp.now
  (p4.1, p3.2 ++ p4.2)

/-- `setup()` of the multi-voice sketches: pattern cleared, stopped,
interval 60000 / 127 ms, first deadline armed from the setup time `t0`. -/
def mvInit (t0 : Nat) : MVState :=
  { pattern := fun _ _ => false, currentVoice := 0, isPlaying := false, stepIndex := 0,
    stepIntervalMs := 60000 / 127, nextStepAtMs := u32 (t0 + 60000 / 127),
    noteActive := fun _ => false, noteOffAtMs := fun _ => 0 }

/-- Fold of the multi-voice `loop()` over a list of tick inputs. -/
def runMV (notes : Nat → Nat) (ch : Nat) (s : MVState) : List MVIn → MVState × List MidiEv
  | [] => (s, [])
  | inp :: rest =>
    let p := mvTick notes ch s inp
    let q := runMV notes ch p.1 rest
    (q.1, p.2 ++ q.2)

/-! ### The single-voice fixed-tempo sketch `four_step_sequencer.ino`

One voice: note 36, velocity 110, channel 9, gate 120 ms, interval
60000 / 127 ms; `stepEnabled` starts all true. -/

structure FSState where
  stepEnabled : Nat → Bool
  isPlaying : Bool
  stepIndex : Nat
  stepIntervalMs : Nat
  nextStepAtMs : Nat
  noteActive : Bool
  noteOffAtMs : Nat

structure FSIn where
  now : Nat
  stepEdges : Nat → Bool
  playEdge : Bool

/-- Gate clamp of the single-voice sketch: `if (gate > stepIntervalMs)
gate = stepIntervalMs - 10;` — uint32 subtraction (which wraps if the
interval were at most 10) truncated to uint16 on assignment. -/
def gateClampBasic (g I : Nat) : Nat :=
  if I < g then u32sub I 10 % 65536 else g

/-- Note-off check of the single-voice `runSequencer`, event side. -/
def fsOffEvents (s : FSState) (now : Nat) : List MidiEv :=
  if s.noteActive = true ∧ i32due now s.noteOffAtMs = true then [MidiEv.off 36 0 9] else []

/-- Note-off check of the single-voice `runSequencer`, state side. -/
def fsAfterOff (s : FSState) (now : Nat) : FSState :=
  if s.noteActive = true ∧ i32due now s.noteOffAtMs = true then { s with noteActive := false }
  else s

/-- `runSequencer` of the single-voice sketch. -/
def runSequencerFS (s : FSState) (now : Nat) : FSState × List MidiEv :=
  let s1 := fsAfterOff s now
  let e1 := fsOffEvents s now
  if s1.isPlaying = false then (s1, e1)
  else if i32due now s1.nextStepAtMs = true then
    if s1.stepEnabled s1.stepIndex = true then
      ({ s1 with
          noteActive := true
          noteOffAtMs := u32 (now + gateClampBasic 120 s1.stepIntervalMs)
          stepIndex := (s1.stepIndex + 1) &&& 3
          nextStepAtMs := u32 (now + s1.stepIntervalMs) },
       e1 ++ [MidiEv.on 36 110 9])
    else
      ({ s1 with
          stepIndex := (s1.stepIndex + 1) &&& 3
          nextStepAtMs := u32 (now + s1.stepIntervalMs) }, e1)
  else (s1, e1)

/-- `handlePlayButton` of the single-voice sketch. -/
def fsHandlePlay (s : FSState) (edge : Bool) (now : Nat) : FSState × List MidiEv :=
  if edge = true then
    if s.isPlaying = false then
      ({ s with isPlaying := true, nextStepAtMs := u32 (now + s.stepIntervalMs) }, [])
    else if s.noteActive = true then
      ({ s with
          isPlaying := false
          noteActive := false }, [MidiEv.off 36 0 9])
    else ({ s with isPlaying := false }, [])
  else (s, [])

/-- Step-button handler of the single-voice `loop()`. -/
def fsButtons (s : FSState) (stepEdges : Nat → Bool) : FSState :=
  { s with stepEnabled := (fun i =>
      if i < 4 ∧ stepEdges i = true then !(s.stepEnabled i) else s.stepEnabled i) }

/-- One pass of the single-voice `loop()`: step buttons, play button,
sequencer. -/
def fsTick (s : FSState) (inp : FSIn) : FSState × List MidiEv :=
  let p2 := fsHandlePlay (fsButtons s inp.stepEdges) inp.playEdge inp.now
  let p3 := runSequencerFS p2.1 inp.now
  (p3.1, p2.2 ++ p3.2)

/-- `setup()` of the single-voice sketch. -/
def fsInit (t0 : Nat) : FSState :=
  { stepEnabled := fun _ => true, isPlaying := false, stepIndex := 0,
    stepIntervalMs := 60000 / 127, nextStepAtMs := u32 (t0 + 60000 / 127),
    noteActive := false, noteOffAtMs := 0 }

/-! ### The tempo + swing sketch

`four_step_multi_voice_sequencer_tempo_swing.ino` samples the tempo and
swing pots every tick and uses plain unsigned comparisons `now >=
noteOffAt[v]` and `now >= nextStepAt` for its deadlines.  Notes 36/38/42/49
on channel 0, velocity 110, gate 60 ms.

The sketch computes `bpm = (tempoRaw / 1023.0f) * 240.0f`, returns early
when `bpm <= 0.5f`, sets `stepIntervalMs = (uint32_t)(60000.0f / bpm)`, and
computes `swingRatio = ((swingRaw - 512) / 512.0f) * 0.6f` and `offset =
(int32_t)(base * swingRatio)`.  Those float expressions are modelled exactly
over `ℚ` by `swBpmQ`, `swRatioQ` and `qtrunc` (a C float-to-int cast
truncates toward zero); the executable tick uses the equivalent integer
forms `swStop`, `swInterval` and `swOffset`, proved equal to the rational
reference model by `swStop_iff`, `swInterval_eq` and `swOffset_eq`. -/

/-- Rational reference model of `bpm = (tempoRaw / 1023.0f) * 240.0f`. -/
def swBpmQ (tempoRaw : Nat) : ℚ := (tempoRaw : ℚ) / 1023 * 240

/-- Rational reference model of `swingRatio = ((swingRaw - 512) / 512.0f) *
MAX_SWING_RATIO` with `MAX_SWING_RATIO = 0.6`. -/
def swRatioQ (swingRaw : Nat) : ℚ := ((swingRaw : ℚ) - 512) / 512 * (3 / 5)

/-- Truncation toward zero: the semantics of a C float-to-integer cast. -/
def qtrunc (q : ℚ) : Int := if 0 ≤ q then ⌊q⌋ else -⌊-q⌋

/-- The early-return test `bpm <= 0.5f`, as an exact integer comparison. -/
def swStop (tempoRaw : Nat) : Bool := decide (tempoRaw * 480 ≤ 1023)

/-- `stepIntervalMs = (uint32_t)(60000.0f / bpm)`, as an exact integer
division (`60000 * 1023 / 240 = 255750`). -/
def swInterval (tempoRaw : Nat) : Nat := 255750 / tempoRaw

/-- `offset = (int32_t)(base * swingRatio)`, as an exact truncating integer
division (`512 * 5 = 2560`). -/
def swOffset (base : Int) (swingRaw : Nat) : Int :=
  Int.tdiv (base * ((swingRaw : Int) - 512) * 3) 2560

/-- The delta armed after a step fires: downbeats (even step index) get
`base - offset`, upbeats get `base + offset`, floored at 1 ms. -/
def swingDelta (idx : Nat) (base offset : Int) : Int :=
  let d := if idx % 2 = 0 then base - offset else base + offset
  if d < 1 then 1 else d

theorem swStop_iff (t : Nat) : swStop t = true ↔ swBpmQ t ≤ 1 / 2 := by
  unfold swStop swBpmQ
  rw [decide_eq_true_iff, div_mul_eq_mul_div,
    div_le_div_iff₀ (by norm_num : (0:ℚ) < 1023) (by norm_num : (0:ℚ) < 2)]
  constructor
  · intro h
    have h2 : ((t * 480 : ℕ) : ℚ) ≤ ((1023 : ℕ) : ℚ) := by exact_mod_cast h
    push_cast at h2
    linarith
  · intro h
    have h2 : ((t * 480 : ℕ) : ℚ) ≤ ((1023 : ℕ) : ℚ) := by push_cast; linarith
    exact_mod_cast h2

theorem swInterval_eq (t : Nat) (h : swStop t = false) :
    (swInterval t : Int) = ⌊(60000 : ℚ) / swBpmQ t⌋ := by
  have ht : 3 ≤ t := by
    unfold swStop at h
    simp only [decide_eq_false_iff_not, not_le] at h
    omega
  have ht0 : (t : ℚ) ≠ 0 := Nat.cast_ne_zero.mpr (by omega)
  have he : (60000 : ℚ) / swBpmQ t = ((255750 : ℕ) : ℚ) / ((t : ℕ) : ℚ) := by
    unfold swBpmQ
    field_simp
    ring
  rw [he, Rat.floor_natCast_div_natCast]
  unfold swInterval
  exact Int.natCast_div 255750 t

theorem qtrunc_intCast_div_natCast (a : Int) (b : Nat) (hb : 0 < b) :
    qtrunc ((a : ℚ) / (b : ℚ)) = Int.tdiv a b := by
  have hbq : (0 : ℚ) < (b : ℚ) := by exact_mod_cast hb
  have hbz : (0 : ℤ) ≤ (b : ℤ) := Int.natCast_nonneg b
  unfold qtrunc
  by_cases ha : 0 ≤ a
  · have haq : (0 : ℚ) ≤ (a : ℚ) / (b : ℚ) := by
      apply div_nonneg _ (le_of_lt hbq)
      exact_mod_cast ha
    rw [if_pos haq, Rat.floor_intCast_div_natCast, Int.tdiv_eq_ediv ha hbz]
  · have haq : ¬ (0 : ℚ) ≤ (a : ℚ) / (b : ℚ) := by
      rw [not_le] at ha ⊢
      exact div_neg_of_neg_of_pos (by exact_mod_cast ha) hbq
    rw [if_neg haq]
    have hneg : -((a : ℚ) / (b : ℚ)) = ((-a : ℤ) : ℚ) / ((b : ℕ) : ℚ) := by push_cast; ring
    rw [hneg, Rat.floor_intCast_div_natCast]
    have h1 : (-a).tdiv (b : ℤ) = (-a) / (b : ℤ) := Int.tdiv_eq_ediv (by omega) hbz
    have h2 : (-a).tdiv (b : ℤ) = -(a.tdiv (b : ℤ)) := Int.neg_tdiv a b
    omega

theorem swOffset_eq (base : Nat) (r : Nat) :
    swOffset (base : Int) r = qtrunc ((base : ℚ) * swRatioQ r) := by
  have he : (base : ℚ) * swRatioQ r
      = (((base : Int) * ((r : Int) - 512) * 3 : Int) : ℚ) / ((2560 : ℕ) : ℚ) := by
    unfold swRatioQ
    push_cast
    ring
  rw [he, qtrunc_intCast_div_natCast _ 2560 (by norm_num)]
  rfl

structure SwingState where
  pattern : Nat → Nat → Bool
  currentVoice : Nat
  isPlaying : Bool
  stepIndex : Nat
  nextStepAt : Nat
  stepIntervalMs : Nat
  noteActive : Nat → Bool
  noteOffAt : Nat → Nat

structure SwingIn where
  now : Nat
  instEdge : Bool
  stepEdges : Nat → Bool
  playEdge : Bool
  tempoRaw : Nat
  swingRaw : Nat

/-- Note table of the swing sketch. -/
def swNotes (v : Nat) : Nat :=
  if v = 0 then 36 else if v = 1 then 38 else if v = 2 then 42 else 49

/-- Stop flush of the swing sketch's play toggle, event side. -/
def swFlushEvents (s : SwingState) : List MidiEv :=
  (List.range 4).filterMap fun v =>
    if s.noteActive v = true then some (.off (swNotes v) 0 0) else none

/-- Play toggle of the swing sketch: toggles `isPlaying`, resets the step
index to 0 and re-arms `nextStepAt = now` on both directions of the toggle,
and flushes every sounding voice when stopping. -/
def swHandlePlay (s : SwingState) (edge : Bool) (now : Nat) : SwingState × List MidiEv :=
  if edge = true then
    let s1 := { s with
      isPlaying := !s.isPlaying
      stepIndex := 0
      nextStepAt := u32 now }
    if s1.isPlaying = false then
      ({ s1 with noteActive := fun v =>
          if v < 4 ∧ s1.noteActive v = true then false else s1.noteActive v },
       swFlushEvents s)
    else (s1, [])
  else (s, [])

/-- Note-off pass of the swing sketch, event side: plain `now >= noteOffAt`. -/
def swOffEvents (s : SwingState) (now : Nat) : List MidiEv :=
  (List.range 4).filterMap fun v =>
    if s.noteActive v = true ∧ s.noteOffAt v ≤ now then some (.off (swNotes v) 0 0) else none

/-- Note-off pass of the swing sketch, state side. -/
def swAfterOff (s : SwingState) (now : Nat) : SwingState :=
  { s with noteActive := fun v =>
      if v < 4 ∧ s.noteActive v = true ∧ s.noteOffAt v ≤ now then false
      else s.noteActive v }

/-- Note-on pass of the swing sketch's due-step branch, event side. -/
def swOnEvents (s : SwingState) : List MidiEv :=
  (List.range 4).filterMap fun v =>
    if s.pattern v s.stepIndex = true then some (.on (swNotes v) 110 0) else none

/-- Note-on pass of the swing sketch's due-step branch, state side: gate is a
flat 60 ms, then the swing delta is computed from the freshly sampled base
interval and swing ratio and the step advances. -/
def swAfterOn (s : SwingState) (now : Nat) (swingRaw : Nat) : SwingState :=
  let delta := swingDelta s.stepIndex (s.stepIntervalMs : Int)
    (swOffset (s.stepIntervalMs : Int) swingRaw)
  { s with
    noteActive := fun v =>
      if v < 4 ∧ s.pattern v s.stepIndex = true then true else s.noteActive v
    noteOffAt := fun v =>
      if v < 4 ∧ s.pattern v s.stepIndex = true then u32 (now + 60) else s.noteOffAt v
    nextStepAt := u32 (now + delta.toNat)
    stepIndex := (s.stepIndex + 1) &&& 3 }

/-- Button handlers of the swing sketch's `loop()`. -/
def swButtons (s : SwingState) (instEdge : Bool) (stepEdges : Nat → Bool) : SwingState :=
  let s1 := if instEdge = true then { s with currentVoice := (s.currentVoice + 1) % 4 } else s
  { s1 with pattern := (fun v i =>
      if v = s1.currentVoice ∧ i < 4 ∧ stepEdges i = true then !(s1.pattern v i)
      else s1.pattern v i) }

/-- The write `stepIntervalMs = (uint32_t)(60000.0f / bpm)`. -/
def swWithInterval (s : SwingState) (iv : Nat) : SwingState :=
  { s with stepIntervalMs := iv }

/-- One pass of the swing sketch's `loop()`: instrument button, step
buttons, play toggle, then the tempo gate (`bpm <= 0.5f` returns early,
before the note-off pass), the interval update, the note-off pass and the
step branch. -/
def swingTick (s : SwingState) (inp : SwingIn) : SwingState × List MidiEv :=
  let p3 := swHandlePlay (swButtons s inp.instEdge inp.stepEdges) inp.playEdge inp.now
  if swStop inp.tempoRaw = true then p3
  else
    let s4 := swWithInterval p3.1 (swInterval inp.tempoRaw)
    let s5 := swAfterOff s4 inp.now
    let e5 := swOffEvents s4 inp.now
    if s5.isPlaying = false then (s5, p3.2 ++ e5)
    else if s5.nextStepAt ≤ inp.now then
      (swAfterOn s5 inp.now inp.swingRaw, p3.2 ++ e5 ++ swOnEvents s5)
    else (s5, p3.2 ++ e5)

/-- `setup()` of the swing sketch. -/
def swInit : SwingState :=
  { pattern := fun _ _ => false, currentVoice := 0, isPlaying := false, stepIndex := 0,
    nextStepAt := 0, stepIntervalMs := 0, noteActive := fun _ => false, noteOffAt := fun _ => 0 }

/-- Fold of the swing sketch's `loop()` over a list of tick inputs. -/
def runSwing (s : SwingState) : List SwingIn → SwingState × List MidiEv
  | [] => (s, [])
  | inp :: rest =>
    let p := swingTick s inp
    let q := runSwing p.1 rest
    (q.1, p.2 ++ q.2)

/-! ### Event-list helpers -/

theorem mem_range4_filterMap (f : Nat → MidiEv) (P : Nat → Prop) [DecidablePred P] (x : MidiEv) :
    (x ∈ (List.range 4).filterMap fun v => if P v then some (f v) else none) ↔
      ∃ v, v < 4 ∧ P v ∧ f v = x := by
  rw [List.mem_filterMap]
  constructor
  · rintro ⟨v, hv, hg⟩
    rw [List.mem_range] at hv
    by_cases hP : P v
    · rw [if_pos hP] at hg
      exact ⟨v, hv, hP, Option.some_inj.mp hg⟩
    · rw [if_neg hP] at hg
      simp at hg
  · rintro ⟨v, hv, hP, hf⟩
    exact ⟨v, List.mem_range.mpr hv, by rw [if_pos hP, hf]⟩

theorem length_filterMap_ite (l : List Nat) (f : Nat → MidiEv) (P : Nat → Prop)
    [DecidablePred P] :
    (l.filterMap fun v => if P v then some (f v) else none).length
      = (l.filter fun v => decide (P v)).length := by
  induction l with
  | nil => rfl
  | cons a l ih =>
    by_cases hP : P a
    · simp [List.filterMap_cons, List.filter_cons, hP, ih]
    · simp [List.filterMap_cons, List.filter_cons, hP, ih]

/-- Specification predicate for C10: a note-off event carries velocity 0 and
a note-on event carries velocity 110. -/
def velOk (x : MidiEv) : Prop :=
  (∀ n velo c, x = MidiEv.off n velo c → velo = 0) ∧
  (∀ n velo c, x = MidiEv.on n velo c → velo = 110)

theorem velOk_off (n c : Nat) : velOk (MidiEv.off n 0 c) := by
  constructor
  · intro n2 v2 c2 h
    cases h
    rfl
  · intro n2 v2 c2 h
    exact absurd h (by simp)

theorem velOk_on (n c : Nat) : velOk (MidiEv.on n 110 c) := by
  constructor
  · intro n2 v2 c2 h
    exact absurd h (by simp)
  · intro n2 v2 c2 h
    cases h
    rfl

theorem velOk_mvHandlePlay (notes : Nat → Nat) (ch : Nat) (s : MVState) (edge : Bool)
    (now : Nat) : ∀ x ∈ (mvHandlePlay notes ch s edge now).2, velOk x := by
  intro x hx
  unfold mvHandlePlay at hx
  split at hx
  · split at hx
    · simp at hx
    · simp only [] at hx
      rw [mem_range4_filterMap] at hx
      obtain ⟨v, _, _, hf⟩ := hx
      rw [← hf]
      exact velOk_off _ _
  · simp at hx

theorem velOk_runSequencerMV (notes : Nat → Nat) (ch : Nat) (s : MVState) (now : Nat) :
    ∀ x ∈ (runSequencerMV notes ch s now).2, velOk x := by
  have hoff : ∀ x ∈ mvOffEvents notes ch s now, velOk x := by
    intro x hx
    unfold mvOffEvents at hx
    rw [mem_range4_filterMap] at hx
    obtain ⟨v, _, _, hf⟩ := hx
    rw [← hf]
    exact velOk_off _ _
  intro x hx
  unfold runSequencerMV at hx
  dsimp only at hx
  split at hx
  · exact hoff x hx
  · split at hx
    · simp only [List.mem_append] at hx
      rcases hx with hx | hx
      · exact hoff x hx
      · unfold mvOnEvents at hx
        rw [mem_range4_filterMap] at hx
        obtain ⟨v, _, _, hf⟩ := hx
        rw [← hf]
        exact velOk_on _ _
    · exact hoff x hx

theorem velOk_mvTick (notes : Nat → Nat) (ch : Nat) (s : MVState) (inp : MVIn) :
    ∀ x ∈ (mvTick notes ch s inp).2, velOk x := by
  intro x hx
  unfold mvTick at hx
  dsimp only at hx
  rw [List.mem_append] at hx
  rcases hx with hx | hx
  · exact velOk_mvHandlePlay _ _ _ _ _ x hx
  · exact velOk_runSequencerMV _ _ _ _ x hx


theorem velOk_fsOffEvents (s : FSState) (now : Nat) :
    ∀ x ∈ fsOffEvents s now, velOk x := by
  intro x hx
  unfold fsOffEvents at hx
  split at hx
  · rw [List.mem_singleton] at hx
    rw [hx]
    exact velOk_off 36 9
  · simp at hx

theorem velOk_runSequencerFS (s : FSState) (now : Nat) :
    ∀ x ∈ (runSequencerFS s now).2, velOk x := by
  intro x hx
  unfold runSequencerFS at hx
  dsimp only at hx
  split at hx
  · exact velOk_fsOffEvents s now x hx
  · split at hx
    · split at hx
      · simp only [List.mem_append, List.mem_singleton] at hx
        rcases hx with hx | hx
        · exact velOk_fsOffEvents s now x hx
        · rw [hx]
          exact velOk_on 36 9
      · exact velOk_fsOffEvents s now x hx
    · exact velOk_fsOffEvents s now x hx

theorem velOk_fsHandlePlay (s : FSState) (edge : Bool) (now : Nat) :
    ∀ x ∈ (fsHandlePlay s edge now).2, velOk x := by
  intro x hx
  unfold fsHandlePlay at hx
  split at hx
  · split at hx
    · simp at hx
    · split at hx
      · rw [List.mem_singleton] at hx
        rw [hx]
        exact velOk_off 36 9
      · simp at hx
  · simp at hx

theorem velOk_fsTick (s : FSState) (inp : FSIn) :
    ∀ x ∈ (fsTick s inp).2, velOk x := by
  intro x hx
  unfold fsTick at hx
  dsimp only at hx
  rw [List.mem_append] at hx
  rcases hx with hx | hx
  · exact velOk_fsHandlePlay _ _ _ x hx
  · exact velOk_runSequencerFS _ _ x hx

theorem velOk_swFlushEvents (s : SwingState) : ∀ x ∈ swFlushEvents s, velOk x := by
  intro x hx
  unfold swFlushEvents at hx
  rw [mem_range4_filterMap] at hx
  obtain ⟨v, _, _, hf⟩ := hx
  rw [← hf]
  exact velOk_off _ _

theorem velOk_swHandlePlay (s : SwingState) (edge : Bool) (now : Nat) :
    ∀ x ∈ (swHandlePlay s edge now).2, velOk x := by
  intro x hx
  unfold swHandlePlay at hx
  dsimp only at hx
  split at hx
  · split at hx
    · exact velOk_swFlushEvents s x hx
    · simp at hx
  · simp at hx

theorem velOk_swOffEvents (s : SwingState) (now : Nat) :
    ∀ x ∈ swOffEvents s now, velOk x := by
  intro x hx
  unfold swOffEvents at hx
  rw [mem_range4_filterMap] at hx
  obtain ⟨v, _, _, hf⟩ := hx
  rw [← hf]
  exact velOk_off _ _

theorem velOk_swOnEvents (s : SwingState) : ∀ x ∈ swOnEvents s, velOk x := by
  intro x hx
  unfold swOnEvents at hx
  rw [mem_range4_filterMap] at hx
  obtain ⟨v, _, _, hf⟩ := hx
  rw [← hf]
  exact velOk_on _ _

theorem velOk_swingTick (s : SwingState) (inp : SwingIn) :
    ∀ x ∈ (swingTick s inp).2, velOk x := by
  intro x hx
  unfold swingTick at hx
  dsimp only at hx
  split at hx
  · exact velOk_swHandlePlay _ _ _ x hx
  · split at hx
    · rw [List.mem_append] at hx
      rcases hx with hx | hx
      · exact velOk_swHandlePlay _ _ _ x hx
      · exact velOk_swOffEvents _ _ x hx
    · split at hx
      · simp only [List.mem_append] at hx
        rcases hx with (hx | hx) | hx
        · exact velOk_swHandlePlay _ _ _ x hx
        · exact velOk_swOffEvents _ _ x hx
        · exact velOk_swOnEvents _ x hx
      · rw [List.mem_append] at hx
        rcases hx with hx | hx
        · exact velOk_swHandlePlay _ _ _ x hx
        · exact velOk_swOffEvents _ _ x hx

/-! ### Button and play-handler facts -/

theorem mvButtons_fields (s : MVState) (a : Bool) (e : Nat → Bool) :
    (mvButtons s a e).isPlaying = s.isPlaying ∧
    (mvButtons s a e).stepIndex = s.stepIndex ∧
    (mvButtons s a e).stepIntervalMs = s.stepIntervalMs ∧
    (mvButtons s a e).nextStepAtMs = s.nextStepAtMs ∧
    (mvButtons s a e).noteActive = s.noteActive ∧
    (mvButtons s a e).noteOffAtMs = s.noteOffAtMs := by
  unfold mvButtons
  dsimp only
  split <;> exact ⟨rfl, rfl, rfl, rfl, rfl, rfl⟩

theorem fsButtons_fields (s : FSState) (e : Nat → Bool) :
    (fsButtons s e).isPlaying = s.isPlaying ∧
    (fsButtons s e).stepIndex = s.stepIndex ∧
    (fsButtons s e).stepIntervalMs = s.stepIntervalMs ∧
    (fsButtons s e).nextStepAtMs = s.nextStepAtMs ∧
    (fsButtons s e).noteActive = s.noteActive ∧
    (fsButtons s e).noteOffAtMs = s.noteOffAtMs :=
  ⟨rfl, rfl, rfl, rfl, rfl, rfl⟩

theorem swButtons_fields (s : SwingState) (a : Bool) (e : Nat → Bool) :
    (swButtons s a e).isPlaying = s.isPlaying ∧
    (swButtons s a e).stepIndex = s.stepIndex ∧
    (swButtons s a e).stepIntervalMs = s.stepIntervalMs ∧
    (swButtons s a e).nextStepAt = s.nextStepAt ∧
    (swButtons s a e).noteActive = s.noteActive ∧
    (swButtons s a e).noteOffAt = s.noteOffAt := by
  unfold swButtons
  dsimp only
  split <;> exact ⟨rfl, rfl, rfl, rfl, rfl, rfl⟩

theorem mvHandlePlay_noEdge (notes : Nat → Nat) (ch : Nat) (s : MVState) (now : Nat) :
    mvHandlePlay notes ch s false now = (s, []) := by
  unfold mvHandlePlay
  simp

theorem mvHandlePlay_start (notes : Nat → Nat) (ch : Nat) (s : MVState) (now : Nat)
    (h : s.isPlaying = false) :
    mvHandlePlay notes ch s true now =
      ({ s with isPlaying := true, nextStepAtMs := u32 (now + s.stepIntervalMs) }, []) := by
  unfold mvHandlePlay
  simp [h]

theorem mvHandlePlay_stop (notes : Nat → Nat) (ch : Nat) (s : MVState) (now : Nat)
    (h : s.isPlaying = true) :
    mvHandlePlay notes ch s true now =
      ({ s with
          isPlaying := false
          noteActive := fun v =>
            if v < 4 ∧ s.noteActive v = true then false else s.noteActive v },
       (List.range 4).filterMap fun v =>
         if s.noteActive v = true then some (.off (notes v) 0 ch) else none) := by
  unfold mvHandlePlay
  simp [h]

theorem swNotes_inj : ∀ a, a < 4 → ∀ b, b < 4 → swNotes a = swNotes b → a = b := by
  decide

theorem count_filterMap_ite (f : Nat → MidiEv) (P : Nat → Prop) [DecidablePred P]
    (v : Nat) (hv : v < 4)
    (hinj : ∀ a, a < 4 → ∀ b, b < 4 → f a = f b → a = b) :
    ∀ (l : List Nat), (∀ w ∈ l, w < 4) → l.Nodup →
      (l.filterMap fun w => if P w then some (f w) else none).count (f v)
        = if v ∈ l ∧ P v then 1 else 0 := by
  intro l
  induction l with
  | nil => intro _ _; simp
  | cons a t ih =>
    intro hlt hnd
    have hat : ∀ w ∈ t, w < 4 := fun w hw => hlt w (List.mem_cons_of_mem a hw)
    have hndt : t.Nodup := hnd.of_cons
    have ha4 : a < 4 := hlt a (List.mem_cons_self a t)
    rw [List.filterMap_cons]
    by_cases hPa : P a
    · rw [if_pos hPa, List.count_cons, ih hat hndt]
      by_cases hav : a = v
      · subst hav
        have hvt : a ∉ t := (List.nodup_cons.mp hnd).1
        simp [hPa, hvt]
      · have hfa : ¬ (f v = f a) := fun he => hav (hinj a ha4 v hv he.symm)
        have hfa2 : ¬ (f a = f v) := fun he => hfa he.symm
        have hva : ¬ (v = a) := fun he => hav he.symm
        simp [List.mem_cons, hfa, hfa2, hva]
    · rw [if_neg hPa, ih hat hndt]
      by_cases hav : a = v
      · subst hav
        simp [hPa]
      · have hva : ¬ (v = a) := fun he => hav he.symm
        simp [List.mem_cons, hva]

theorem range4_facts : (∀ w ∈ List.range 4, w < 4) ∧ (List.range 4).Nodup :=
  ⟨fun _ hw => List.mem_range.mp hw, List.nodup_range 4⟩

theorem count_range4_filterMap (f : Nat → MidiEv) (P : Nat → Prop) [DecidablePred P]
    (v : Nat) (hv : v < 4)
    (hinj : ∀ a, a < 4 → ∀ b, b < 4 → f a = f b → a = b) :
    ((List.range 4).filterMap fun w => if P w then some (f w) else none).count (f v)
      = if P v then 1 else 0 := by
  rw [count_filterMap_ite f P v hv hinj (List.range 4) range4_facts.1 range4_facts.2]
  simp [List.mem_range, hv]

theorem swHandlePlay_noEdge (s : SwingState) (now : Nat) :
    swHandlePlay s false now = (s, []) := by
  unfold swHandlePlay
  simp

theorem swHandlePlay_start (s : SwingState) (now : Nat) (h : s.isPlaying = false) :
    swHandlePlay s true now =
      ({ s with isPlaying := true, stepIndex := 0, nextStepAt := u32 now }, []) := by
  unfold swHandlePlay
  simp [h]

theorem swHandlePlay_stop (s : SwingState) (now : Nat) (h : s.isPlaying = true) :
    swHandlePlay s true now =
      ({ s with
          isPlaying := false
          stepIndex := 0
          nextStepAt := u32 now
          noteActive := fun v =>
            if v < 4 ∧ s.noteActive v = true then false else s.noteActive v },
       swFlushEvents s) := by
  unfold swHandlePlay
  simp [h]

theorem fsHandlePlay_noEdge (s : FSState) (now : Nat) :
    fsHandlePlay s false now = (s, []) := by
  unfold fsHandlePlay
  simp

theorem fsHandlePlay_start (s : FSState) (now : Nat) (h : s.isPlaying = false) :
    fsHandlePlay s true now =
      ({ s with isPlaying := true, nextStepAtMs := u32 (now + s.stepIntervalMs) }, []) := by
  unfold fsHandlePlay
  simp [h]

theorem fsHandlePlay_stop_active (s : FSState) (now : Nat) (h : s.isPlaying = true)
    (ha : s.noteActive = true) :
    fsHandlePlay s true now =
      ({ s with
          isPlaying := false
          noteActive := false }, [MidiEv.off 36 0 9]) := by
  unfold fsHandlePlay
  simp [h, ha]

theorem fsHandlePlay_stop_silent (s : FSState) (now : Nat) (h : s.isPlaying = true)
    (ha : s.noteActive = false) :
    fsHandlePlay s true now = ({ s with isPlaying := false }, []) := by
  unfold fsHandlePlay
  simp [h, ha]

theorem mv_runSeq_off (notes : Nat → Nat) (ch : Nat) (s : MVState) (now : Nat) (v : Nat)
    (hv : v < 4) (ha : s.noteActive v = true) (hd : i32due now (s.noteOffAtMs v) = true) :
    MidiEv.off (notes v) 0 ch ∈ (runSequencerMV notes ch s now).2 ∧
      (mvAfterOff s now).noteActive v = false := by
  have hmem : MidiEv.off (notes v) 0 ch ∈ mvOffEvents notes ch s now := by
    unfold mvOffEvents
    rw [mem_range4_filterMap]
    exact ⟨v, hv, ⟨ha, hd⟩, rfl⟩
  constructor
  · unfold runSequencerMV
    dsimp only
    split
    · exact hmem
    · split
      · exact List.mem_append_left _ hmem
      · exact hmem
  · unfold mvAfterOff
    dsimp only
    simp [hv, ha, hd]

theorem mv_tick_off (notes : Nat → Nat) (ch : Nat) (s : MVState) (inp : MVIn) (v : Nat)
    (hv : v < 4) (ha : s.noteActive v = true)
    (hd : i32due inp.now (s.noteOffAtMs v) = true) :
    MidiEv.off (notes v) 0 ch ∈ (mvTick notes ch s inp).2 := by
  have hb := mvButtons_fields s inp.instEdge inp.stepEdges
  have haB : (mvButtons s inp.instEdge inp.stepEdges).noteActive v = true := by
    rw [hb.2.2.2.2.1]
    exact ha
  have hdB : i32due inp.now ((mvButtons s inp.instEdge inp.stepEdges).noteOffAtMs v) = true := by
    rw [hb.2.2.2.2.2]
    exact hd
  unfold mvTick
  dsimp only
  rw [List.mem_append]
  by_cases hedge : inp.playEdge = true
  · by_cases hplay : (mvButtons s inp.instEdge inp.stepEdges).isPlaying = false
    · rw [hedge, mvHandlePlay_start notes ch _ inp.now hplay]
      refine Or.inr (mv_runSeq_off notes ch _ inp.now v hv ?_ ?_).1
      · exact haB
      · exact hdB
    · have hplay2 : (mvButtons s inp.instEdge inp.stepEdges).isPlaying = true := by
        revert hplay
        cases (mvButtons s inp.instEdge inp.stepEdges).isPlaying <;> simp
      rw [hedge, mvHandlePlay_stop notes ch _ inp.now hplay2]
      refine Or.inl ?_
      rw [mem_range4_filterMap]
      exact ⟨v, hv, haB, rfl⟩
  · have hedge2 : inp.playEdge = false := by
      revert hedge
      cases inp.playEdge <;> simp
    rw [hedge2, mvHandlePlay_noEdge]
    exact Or.inr (mv_runSeq_off notes ch _ inp.now v hv haB hdB).1

theorem fs_runSeq_off (s : FSState) (now : Nat) (ha : s.noteActive = true)
    (hd : i32due now s.noteOffAtMs = true) :
    MidiEv.off 36 0 9 ∈ (runSequencerFS s now).2 := by
  have he1 : MidiEv.off 36 0 9 ∈ fsOffEvents s now := by
    unfold fsOffEvents
    rw [if_pos ⟨ha, hd⟩]
    exact List.mem_singleton_self _
  unfold runSequencerFS
  dsimp only
  split
  · exact he1
  · split
    · split
      · exact List.mem_append_left _ he1
      · exact he1
    · exact he1

theorem fs_tick_off (s : FSState) (inp : FSIn) (ha : s.noteActive = true)
    (hd : i32due inp.now s.noteOffAtMs = true) :
    MidiEv.off 36 0 9 ∈ (fsTick s inp).2 ∧ (fsAfterOff s inp.now).noteActive = false := by
  have hb := fsButtons_fields s inp.stepEdges
  have haB : (fsButtons s inp.stepEdges).noteActive = true := by
    rw [hb.2.2.2.2.1]
    exact ha
  have hdB : i32due inp.now (fsButtons s inp.stepEdges).noteOffAtMs = true := by
    rw [hb.2.2.2.2.2]
    exact hd
  constructor
  · unfold fsTick
    dsimp only
    rw [List.mem_append]
    by_cases hedge : inp.playEdge = true
    · by_cases hplay : (fsButtons s inp.stepEdges).isPlaying = false
      · rw [hedge, fsHandlePlay_start _ inp.now hplay]
        refine Or.inr (fs_runSeq_off _ inp.now ?_ ?_)
        · exact haB
        · exact hdB
      · have hplay2 : (fsButtons s inp.stepEdges).isPlaying = true := by
          revert hplay
          cases (fsButtons s inp.stepEdges).isPlaying <;> simp
        rw [hedge, fsHandlePlay_stop_active _ inp.now hplay2 haB]
        exact Or.inl (List.mem_singleton_self _)
    · have hedge2 : inp.playEdge = false := by
        revert hedge
        cases inp.playEdge <;> simp
      rw [hedge2, fsHandlePlay_noEdge]
      exact Or.inr (fs_runSeq_off _ inp.now haB hdB)
  · unfold fsAfterOff
    rw [if_pos ⟨ha, hd⟩]

theorem sw_tick_off (s : SwingState) (inp : SwingIn) (v : Nat) (hv : v < 4)
    (hstop : swStop inp.tempoRaw = false) (ha : s.noteActive v = true)
    (hd : s.noteOffAt v ≤ inp.now) :
    MidiEv.off (swNotes v) 0 0 ∈ (swingTick s inp).2 := by
  have hb := swButtons_fields s inp.instEdge inp.stepEdges
  have haB : (swButtons s inp.instEdge inp.stepEdges).noteActive v = true := by
    rw [hb.2.2.2.2.1]
    exact ha
  have hdB : (swButtons s inp.instEdge inp.stepEdges).noteOffAt v ≤ inp.now := by
    rw [hb.2.2.2.2.2]
    exact hd
  unfold swingTick
  dsimp only
  rw [hstop]
  simp only [Bool.false_eq_true, if_false]
  have hkey : ∀ (p : SwingState × List MidiEv),
      p = swHandlePlay (swButtons s inp.instEdge inp.stepEdges) inp.playEdge inp.now →
      MidiEv.off (swNotes v) 0 0 ∈ p.2 ∨
        (p.1.noteActive v = true ∧ p.1.noteOffAt v ≤ inp.now) := by
    intro p hp
    by_cases hedge : inp.playEdge = true
    · by_cases hplay : (swButtons s inp.instEdge inp.stepEdges).isPlaying = false
      · rw [hedge, swHandlePlay_start _ inp.now hplay] at hp
        exact Or.inr (by rw [hp]; exact ⟨haB, hdB⟩)
      · have hplay2 : (swButtons s inp.instEdge inp.stepEdges).isPlaying = true := by
          revert hplay
          cases (swButtons s inp.instEdge inp.stepEdges).isPlaying <;> simp
        rw [hedge, swHandlePlay_stop _ inp.now hplay2] at hp
        refine Or.inl ?_
        rw [hp]
        unfold swFlushEvents
        rw [mem_range4_filterMap]
        exact ⟨v, hv, haB, rfl⟩
    · have hedge2 : inp.playEdge = false := by
        revert hedge
        cases inp.playEdge <;> simp
      rw [hedge2, swHandlePlay_noEdge] at hp
      exact Or.inr (by rw [hp]; exact ⟨haB, hdB⟩)
  have hin : MidiEv.off (swNotes v) 0 0 ∈
      (swHandlePlay (swButtons s inp.instEdge inp.stepEdges) inp.playEdge inp.now).2 ++
        swOffEvents
          (swWithInterval
            (swHandlePlay (swButtons s inp.instEdge inp.stepEdges) inp.playEdge inp.now).1
            (swInterval inp.tempoRaw)) inp.now := by
    rcases hkey _ rfl with hk | hk
    · exact List.mem_append_left _ hk
    · refine List.mem_append_right _ ?_
      unfold swOffEvents
      rw [mem_range4_filterMap]
      exact ⟨v, hv, ⟨hk.1, hk.2⟩, rfl⟩
  split
  · exact hin
  · split
    · exact List.mem_append_left _ hin
    · exact hin

/-! ### Concrete states used by witnesses and counterexamples -/

/-- Note table of the DIN MIDI OUT sketch, for concrete test states. -/
def egNotes : Nat → Nat :=
  fun v => if v = 0 then 60 else if v = 1 then 65 else if v = 2 then 72 else 75

/-- Multi-voice state: playing, voice 0 triggered on step 0, step due at 1000. -/
def egMVOn : MVState :=
  { pattern := fun v i => decide (v = 0 ∧ i = 0), currentVoice := 0, isPlaying := true,
    stepIndex := 0, stepIntervalMs := 472, nextStepAtMs := 1000,
    noteActive := fun _ => false, noteOffAtMs := fun _ => 0 }

/-- Quiet multi-voice tick input at 1000 ms. -/
def egMVIn : MVIn :=
  { now := 1000, instEdge := false, stepEdges := fun _ => false, playEdge := false }

/-- Multi-voice state with voice 0 sounding past its gate deadline, stopped. -/
def egMVSounding : MVState :=
  { pattern := fun _ _ => false, currentVoice := 0, isPlaying := false,
    stepIndex := 1, stepIntervalMs := 472, nextStepAtMs := 1472,
    noteActive := fun v => decide (v = 0), noteOffAtMs := fun _ => 1120 }

/-- Quiet multi-voice tick input at 1200 ms. -/
def egMVIn2 : MVIn :=
  { now := 1200, instEdge := false, stepEdges := fun _ => false, playEdge := false }

/-- Swing state with voice 0 sounding, gate deadline 1060, engine playing. -/
def egStuck : SwingState :=
  { pattern := fun _ _ => false, currentVoice := 0, isPlaying := true, stepIndex := 1,
    nextStepAt := 1250, stepIntervalMs := 250, noteActive := fun v => decide (v = 0),
    noteOffAt := fun _ => 1060 }

/-- Swing tick input far past the gate deadline whose tempo pot reads 0. -/
def egStuckIn : SwingIn :=
  { now := 4000000, instEdge := false, stepEdges := fun _ => false, playEdge := false,
    tempoRaw := 0, swingRaw := 512 }

/-- C3 (corrected): the expired-gate check is skipped entirely by a swing
tick whose tempo input reads stopped.  Concretely: voice 0 is Sounding with
off-deadline 1060 ms and the engine is playing, the tick happens at
4000000 ms — far past the deadline — with the tempo pot at 0, and the tick
emits no events at all and leaves the voice Sounding, so the check did not
run and the voice's duration is not bounded while the tempo reads stopped. -/
theorem C3_counterexample :
    egStuck.noteActive 0 = true ∧ egStuck.isPlaying = true ∧
      egStuck.noteOffAt 0 ≤ egStuckIn.now ∧
      (swingTick egStuck egStuckIn).2 = [] ∧
      (swingTick egStuck egStuckIn).1.noteActive 0 = true := by
  decide

/-- C3 (amended): in the fixed-tempo sketches the expired-gate check runs on
every tick regardless of the play/stop state and of every other input: a
Sounding voice whose off-deadline is due (in the signed-difference sense) has
its note-off emitted by that same tick and is returned to Silent by the
note-off pass.  In the swing sketch the same holds only for ticks whose
sampled tempo is above 0.5 BPM (`swStop` false); the check there runs
regardless of play/stop state but not of the tempo input. -/
theorem C3_gate_check_amended :
    (∀ (s : FSState) (inp : FSIn), s.noteActive = true →
      i32due inp.now s.noteOffAtMs = true →
      MidiEv.off 36 0 9 ∈ (fsTick s inp).2 ∧ (fsAfterOff s inp.now).noteActive = false) ∧
    (∀ (notes : Nat → Nat) (ch : Nat) (s : MVState) (inp : MVIn) (v : Nat), v < 4 →
      s.noteActive v = true → i32due inp.now (s.noteOffAtMs v) = true →
      MidiEv.off (notes v) 0 ch ∈ (mvTick notes ch s inp).2 ∧
        (mvAfterOff s inp.now).noteActive v = false) ∧
    (∀ (s : SwingState) (inp : SwingIn) (v : Nat), v < 4 →
      swStop inp.tempoRaw = false → s.noteActive v = true → s.noteOffAt v ≤ inp.now →
      MidiEv.off (swNotes v) 0 0 ∈ (swingTick s inp).2) :=
  ⟨fun s inp ha hd => fs_tick_off s inp ha hd,
   fun notes ch s inp v hv ha hd =>
     ⟨mv_tick_off notes ch s inp v hv ha hd, (mv_runSeq_off notes ch s inp.now v hv ha hd).2⟩,
   fun s inp v hv hstop ha hd => sw_tick_off s inp v hv hstop ha hd⟩

theorem C3_gate_check_amended_witness :
    MidiEv.off 60 0 0 ∈ (mvTick egNotes 0 egMVSounding egMVIn2).2 ∧
      (mvAfterOff egMVSounding egMVIn2.now).noteActive 0 = false :=
  C3_gate_check_amended.2.1 egNotes 0 egMVSounding egMVIn2 0 (by decide) (by decide) (by decide)

/-- C10 (confirmed): in all three sketches, every emitted note-off event —
whether from gate expiry or from the stop flush — carries MIDI velocity 0,
and every emitted note-on carries the configured velocity 110; the note-on
velocity is never echoed in a note-off. -/
theorem C10_velocity_conventions :
    (∀ (notes : Nat → Nat) (ch : Nat) (s : MVState) (inp : MVIn),
      ∀ x ∈ (mvTick notes ch s inp).2, velOk x) ∧
    (∀ (s : FSState) (inp : FSIn), ∀ x ∈ (fsTick s inp).2, velOk x) ∧
    (∀ (s : SwingState) (inp : SwingIn), ∀ x ∈ (swingTick s inp).2, velOk x) :=
  ⟨velOk_mvTick, velOk_fsTick, velOk_swingTick⟩

theorem C10_velocity_conventions_witness :
    (mvTick egNotes 0 egMVOn egMVIn).2 = [MidiEv.on 60 110 0] ∧ 110 = 110 :=
  ⟨by decide,
   (C10_velocity_conventions.1 egNotes 0 egMVOn egMVIn (MidiEv.on 60 110 0) (by decide)).2
     60 110 0 rfl⟩

theorem land3_eq_mod (n : Nat) : n &&& 3 = n % 4 := by
  simpa using Nat.and_pow_two_sub_one_eq_mod n 2

theorem fs_off_iff (s : FSState) (now : Nat) :
    MidiEv.off 36 0 9 ∈ (runSequencerFS s now).2 ↔
      s.noteActive = true ∧ 0 ≤ toInt32 (u32sub now s.noteOffAtMs) := by
  constructor
  · intro hx
    have hx2 : MidiEv.off 36 0 9 ∈ fsOffEvents s now := by
      unfold runSequencerFS at hx
      dsimp only at hx
      split at hx
      · exact hx
      · split at hx
        · split at hx
          · rw [List.mem_append] at hx
            rcases hx with hx | hx
            · exact hx
            · rw [List.mem_singleton] at hx
              exact absurd hx (by simp)
          · exact hx
        · exact hx
    unfold fsOffEvents at hx2
    split at hx2
    case isTrue h =>
      refine ⟨h.1, ?_⟩
      have h2 := h.2
      unfold i32due at h2
      exact of_decide_eq_true h2
    case isFalse h => simp at hx2
  · rintro ⟨ha, hd⟩
    exact fs_runSeq_off s now ha (by unfold i32due; exact decide_eq_true hd)

theorem mv_off_iff (notes : Nat → Nat) (ch : Nat) (s : MVState) (now : Nat) (v : Nat)
    (hv : v < 4) (hinj : ∀ a, a < 4 → ∀ b, b < 4 → notes a = notes b → a = b) :
    MidiEv.off (notes v) 0 ch ∈ (runSequencerMV notes ch s now).2 ↔
      s.noteActive v = true ∧ 0 ≤ toInt32 (u32sub now (s.noteOffAtMs v)) := by
  constructor
  · intro hx
    have hx2 : MidiEv.off (notes v) 0 ch ∈ mvOffEvents notes ch s now := by
      unfold runSequencerMV at hx
      dsimp only at hx
      split at hx
      · exact hx
      · split at hx
        · rw [List.mem_append] at hx
          rcases hx with hx | hx
          · exact hx
          · exfalso
            unfold mvOnEvents at hx
            rw [mem_range4_filterMap] at hx
            obtain ⟨w, _, _, hfw⟩ := hx
            exact absurd hfw (by simp)
        · exact hx
    unfold mvOffEvents at hx2
    rw [mem_range4_filterMap] at hx2
    obtain ⟨w, hw, hPw, hfw⟩ := hx2
    have hnw : notes w = notes v := by injection hfw
    have hwv : w = v := hinj w hw v hv hnw
    subst hwv
    refine ⟨hPw.1, ?_⟩
    have h2 := hPw.2
    unfold i32due at h2
    exact of_decide_eq_true h2
  · rintro ⟨ha, hd⟩
    exact (mv_runSeq_off notes ch s now v hv ha (by unfold i32due; exact decide_eq_true hd)).1

theorem sw_off_iff (s : SwingState) (now : Nat) (v : Nat) (hv : v < 4) :
    MidiEv.off (swNotes v) 0 0 ∈ swOffEvents s now ↔
      s.noteActive v = true ∧ s.noteOffAt v ≤ now := by
  unfold swOffEvents
  rw [mem_range4_filterMap]
  constructor
  · rintro ⟨w, hw, hPw, hfw⟩
    have hnw : swNotes w = swNotes v := by injection hfw
    have hwv : w = v := swNotes_inj w hw v hv hnw
    subst hwv
    exact hPw
  · intro h
    exact ⟨v, hv, h, rfl⟩

theorem mvAfterOff_fields (s : MVState) (now : Nat) :
    (mvAfterOff s now).isPlaying = s.isPlaying ∧
    (mvAfterOff s now).stepIndex = s.stepIndex ∧
    (mvAfterOff s now).stepIntervalMs = s.stepIntervalMs ∧
    (mvAfterOff s now).nextStepAtMs = s.nextStepAtMs ∧
    (mvAfterOff s now).pattern = s.pattern :=
  ⟨rfl, rfl, rfl, rfl, rfl⟩

theorem mv_step_iff (notes : Nat → Nat) (ch : Nat) (s : MVState) (now : Nat)
    (hp : s.isPlaying = true) :
    (runSequencerMV notes ch s now).1.stepIndex = (s.stepIndex + 1) % 4 ↔
      0 ≤ toInt32 (u32sub now s.nextStepAtMs) := by
  have hne : ¬ (s.stepIndex = (s.stepIndex + 1) % 4) := by omega
  have hply : ¬ ((mvAfterOff s now).isPlaying = false) := by
    rw [(mvAfterOff_fields s now).1, hp]
    simp
  unfold runSequencerMV
  dsimp only
  rw [if_neg hply]
  by_cases hd : 0 ≤ toInt32 (u32sub now s.nextStepAtMs)
  · have hdt : i32due now (mvAfterOff s now).nextStepAtMs = true := by
      rw [(mvAfterOff_fields s now).2.2.2.1]
      unfold i32due
      exact decide_eq_true hd
    rw [hdt]
    simp only [if_true]
    refine iff_of_true ?_ hd
    show ((mvAfterOff s now).stepIndex + 1) &&& 3 = (s.stepIndex + 1) % 4
    rw [(mvAfterOff_fields s now).2.1, land3_eq_mod]
  · have hdf : i32due now (mvAfterOff s now).nextStepAtMs = false := by
      rw [(mvAfterOff_fields s now).2.2.2.1]
      unfold i32due
      exact decide_eq_false hd
    rw [hdf]
    simp only [Bool.false_eq_true, if_false]
    refine iff_of_false ?_ hd
    show ¬ ((mvAfterOff s now).stepIndex = (s.stepIndex + 1) % 4)
    rw [(mvAfterOff_fields s now).2.1]
    exact hne

theorem sw_step_iff (s : SwingState) (inp : SwingIn)
    (hplayE : inp.playEdge = false) (hstop : swStop inp.tempoRaw = false)
    (hp : s.isPlaying = true) :
    (swingTick s inp).1.stepIndex = (s.stepIndex + 1) % 4 ↔ s.nextStepAt ≤ inp.now := by
  have hb := swButtons_fields s inp.instEdge inp.stepEdges
  have hne : ¬ (s.stepIndex = (s.stepIndex + 1) % 4) := by omega
  unfold swingTick
  dsimp only
  rw [hplayE, swHandlePlay_noEdge, hstop]
  simp only [Bool.false_eq_true, if_false]
  have hply : ¬ ((swAfterOff (swWithInterval (swButtons s inp.instEdge inp.stepEdges)
      (swInterval inp.tempoRaw)) inp.now).isPlaying = false) := by
    have heq : (swAfterOff (swWithInterval (swButtons s inp.instEdge inp.stepEdges)
        (swInterval inp.tempoRaw)) inp.now).isPlaying = s.isPlaying := hb.1
    rw [heq, hp]
    simp
  rw [if_neg hply]
  have hnext : (swAfterOff (swWithInterval (swButtons s inp.instEdge inp.stepEdges)
      (swInterval inp.tempoRaw)) inp.now).nextStepAt = s.nextStepAt := hb.2.2.2.1
  have hidx : (swAfterOff (swWithInterval (swButtons s inp.instEdge inp.stepEdges)
      (swInterval inp.tempoRaw)) inp.now).stepIndex = s.stepIndex := hb.2.1
  by_cases hd : s.nextStepAt ≤ inp.now
  · rw [if_pos (by rw [hnext]; exact hd)]
    refine iff_of_true ?_ hd
    show ((swAfterOff (swWithInterval (swButtons s inp.instEdge inp.stepEdges)
      (swInterval inp.tempoRaw)) inp.now).stepIndex + 1) &&& 3 = (s.stepIndex + 1) % 4
    rw [hidx, land3_eq_mod]
  · rw [if_neg (by rw [hnext]; exact hd)]
    refine iff_of_false ?_ hd
    show ¬ ((swAfterOff (swWithInterval (swButtons s inp.instEdge inp.stepEdges)
      (swInterval inp.tempoRaw)) inp.now).stepIndex = (s.stepIndex + 1) % 4)
    rw [hidx]
    exact hne

/-- Swing state with voice 0 sounding whose off-deadline was armed just
before the uint32 millisecond counter wrapped. -/
def egWrap : SwingState :=
  { pattern := fun _ _ => false, currentVoice := 0, isPlaying := false, stepIndex := 0,
    nextStepAt := 0, stepIntervalMs := 250, noteActive := fun v => decide (v = 0),
    noteOffAt := fun _ => 4294967196 }

/-- Swing tick input shortly after the counter wrapped, tempo running. -/
def egWrapIn : SwingIn :=
  { now := 105, instEdge := false, stepEdges := fun _ => false, playEdge := false,
    tempoRaw := 1023, swingRaw := 512 }

/-- Single-voice state with the note sounding past its deadline, stopped. -/
def egFS : FSState :=
  { stepEnabled := fun _ => true, isPlaying := false, stepIndex := 1,
    stepIntervalMs := 472, nextStepAtMs := 1472, noteActive := true, noteOffAtMs := 1120 }

/-- C5 (corrected): not every deadline check is the wraparound-safe signed
comparison.  Voice 0's off-deadline is 4294967196 (armed just before the
uint32 counter wraps) and the tick happens at 105 ms after the wrap: the
signed-difference test `(int32_t)(now - deadline) >= 0` says the deadline is
due (the difference is +205), yet the swing sketch's plain unsigned
comparison `now >= noteOffAt[v]` does not fire — the tick emits nothing and
leaves the voice sounding. -/
theorem C5_counterexample :
    i32due egWrapIn.now (egWrap.noteOffAt 0) = true ∧
      egWrap.noteActive 0 = true ∧
      (swingTick egWrap egWrapIn).2 = [] ∧
      (swingTick egWrap egWrapIn).1.noteActive 0 = true := by
  decide


theorem mv_runSeq_stopped (notes : Nat → Nat) (ch : Nat) (s : MVState) (now : Nat)
    (hp : s.isPlaying = false) :
    runSequencerMV notes ch s now = (mvAfterOff s now, mvOffEvents notes ch s now) := by
  unfold runSequencerMV
  dsimp only
  rw [if_pos (((mvAfterOff_fields s now).1).trans hp)]

theorem mvOffEvents_all_inactive (notes : Nat → Nat) (ch : Nat) (s : MVState) (now : Nat)
    (h : ∀ v, v < 4 → s.noteActive v = false) :
    mvOffEvents notes ch s now = [] := by
  unfold mvOffEvents
  rw [List.filterMap_eq_nil_iff]
  intro v hv
  rw [if_neg]
  rintro ⟨ha, _⟩
  rw [h v (List.mem_range.mp hv)] at ha
  cases ha

theorem mv_stop_flush (notes : Nat → Nat) (ch : Nat) (s : MVState) (inp : MVIn)
    (hE : inp.playEdge = true) (hp : s.isPlaying = true) :
    (mvTick notes ch s inp).2 =
      ((List.range 4).filterMap fun v =>
        if s.noteActive v = true then some (.off (notes v) 0 ch) else none) ∧
    (mvTick notes ch s inp).2.length = (List.range 4).countP (fun v => s.noteActive v) ∧
    (∀ v, v < 4 → (mvTick notes ch s inp).1.noteActive v = false) ∧
    (mvTick notes ch s inp).1.isPlaying = false := by
  have hb := mvButtons_fields s inp.instEdge inp.stepEdges
  have hpB : (mvButtons s inp.instEdge inp.stepEdges).isPlaying = true := by
    rw [hb.1]
    exact hp
  have hstop := mvHandlePlay_stop notes ch (mvButtons s inp.instEdge inp.stepEdges) inp.now hpB
  have hact : ∀ v, v < 4 →
      ({ mvButtons s inp.instEdge inp.stepEdges with
          isPlaying := false
          noteActive := fun v =>
            if v < 4 ∧ (mvButtons s inp.instEdge inp.stepEdges).noteActive v = true then false
            else (mvButtons s inp.instEdge inp.stepEdges).noteActive v } : MVState).noteActive v
        = false := by
    intro v hv
    dsimp only
    by_cases ha : (mvButtons s inp.instEdge inp.stepEdges).noteActive v = true
    · rw [if_pos ⟨hv, ha⟩]
    · rw [if_neg (by rintro ⟨_, h2⟩; exact ha h2)]
      revert ha
      cases (mvButtons s inp.instEdge inp.stepEdges).noteActive v <;> simp
  have hseq := mv_runSeq_stopped notes ch
    ({ mvButtons s inp.instEdge inp.stepEdges with
        isPlaying := false
        noteActive := fun v =>
          if v < 4 ∧ (mvButtons s inp.instEdge inp.stepEdges).noteActive v = true then false
          else (mvButtons s inp.instEdge inp.stepEdges).noteActive v } : MVState) inp.now rfl
  have hflush : ((List.range 4).filterMap fun v =>
      if (mvButtons s inp.instEdge inp.stepEdges).noteActive v = true then
        some (MidiEv.off (notes v) 0 ch)
      else none) =
      ((List.range 4).filterMap fun v =>
        if s.noteActive v = true then some (MidiEv.off (notes v) 0 ch) else none) := by
    rw [hb.2.2.2.2.1]
  have hev : (mvTick notes ch s inp).2 =
      ((List.range 4).filterMap fun v =>
        if s.noteActive v = true then some (MidiEv.off (notes v) 0 ch) else none) := by
    unfold mvTick
    dsimp only
    rw [hE, hstop]
    dsimp only
    rw [hseq]
    dsimp only
    rw [mvOffEvents_all_inactive notes ch _ inp.now hact, List.append_nil, hflush]
  refine ⟨hev, ?_, ?_, ?_⟩
  · rw [hev, length_filterMap_ite, List.countP_eq_length_filter]
    simp
  · intro v hv
    unfold mvTick
    dsimp only
    rw [hE, hstop]
    dsimp only
    rw [hseq]
    dsimp only
    unfold mvAfterOff
    dsimp only
    by_cases ha : (mvButtons s inp.instEdge inp.stepEdges).noteActive v = true
    · simp [hv, ha]
    · simp [hv, ha]
  · unfold mvTick
    dsimp only
    rw [hE, hstop]
    dsimp only
    rw [hseq]
    rfl

theorem mv_stopped_tick (notes : Nat → Nat) (ch : Nat) (s : MVState) (inp : MVIn)
    (hp : s.isPlaying = false) (hE : inp.playEdge = false) :
    (∀ x ∈ (mvTick notes ch s inp).2, ∀ n velo c, x ≠ MidiEv.on n velo c) ∧
    (mvTick notes ch s inp).1.isPlaying = false := by
  have hb := mvButtons_fields s inp.instEdge inp.stepEdges
  have hpB : (mvButtons s inp.instEdge inp.stepEdges).isPlaying = false := by
    rw [hb.1]
    exact hp
  have hseq := mv_runSeq_stopped notes ch (mvButtons s inp.instEdge inp.stepEdges) inp.now hpB
  constructor
  · intro x hx n velo c
    unfold mvTick at hx
    dsimp only at hx
    rw [hE, mvHandlePlay_noEdge] at hx
    dsimp only at hx
    rw [hseq] at hx
    rw [List.nil_append] at hx
    unfold mvOffEvents at hx
    rw [mem_range4_filterMap] at hx
    obtain ⟨w, _, _, hf⟩ := hx
    rw [← hf]
    simp
  · unfold mvTick
    dsimp only
    rw [hE, mvHandlePlay_noEdge]
    dsimp only
    rw [hseq]
    exact hpB

theorem mv_stopped_trace (notes : Nat → Nat) (ch : Nat) :
    ∀ (inps : List MVIn) (s : MVState), s.isPlaying = false →
      (∀ i ∈ inps, i.playEdge = false) →
      (∀ x ∈ (runMV notes ch s inps).2, ∀ n velo c, x ≠ MidiEv.on n velo c) ∧
      (runMV notes ch s inps).1.isPlaying = false := by
  intro inps
  induction inps with
  | nil =>
    intro s hp _
    exact ⟨by intro x hx; simp [runMV] at hx, hp⟩
  | cons i rest ih =>
    intro s hp hall
    have hi : i.playEdge = false := hall i (List.mem_cons_self i rest)
    have h1 := mv_stopped_tick notes ch s i hp hi
    have h2 := ih (mvTick notes ch s i).1 h1.2
      (fun j hj => hall j (List.mem_cons_of_mem i hj))
    constructor
    · intro x hx n velo c
      unfold runMV at hx
      dsimp only at hx
      rw [List.mem_append] at hx
      rcases hx with hx | hx
      · exact h1.1 x hx n velo c
      · exact h2.1 x hx n velo c
    · unfold runMV
      dsimp only
      exact h2.2

theorem swOffEvents_all_inactive (s : SwingState) (now : Nat)
    (h : ∀ v, v < 4 → s.noteActive v = false) :
    swOffEvents s now = [] := by
  unfold swOffEvents
  rw [List.filterMap_eq_nil_iff]
  intro v hv
  rw [if_neg]
  rintro ⟨ha, _⟩
  rw [h v (List.mem_range.mp hv)] at ha
  cases ha

theorem swAfterOff_inactive (x : SwingState) (now v : Nat) (h : x.noteActive v = false) :
    (swAfterOff x now).noteActive v = false := by
  unfold swAfterOff
  dsimp only
  rw [if_neg]
  · exact h
  · rintro ⟨_, h2, _⟩
    rw [h] at h2
    cases h2

theorem sw_stop_flush (s : SwingState) (inp : SwingIn)
    (hE : inp.playEdge = true) (hp : s.isPlaying = true) :
    (swingTick s inp).2 =
      ((List.range 4).filterMap fun v =>
        if s.noteActive v = true then some (.off (swNotes v) 0 0) else none) ∧
    (swingTick s inp).2.length = (List.range 4).countP (fun v => s.noteActive v) ∧
    (∀ v, v < 4 → (swingTick s inp).1.noteActive v = false) ∧
    (swingTick s inp).1.isPlaying = false := by
  have hb := swButtons_fields s inp.instEdge inp.stepEdges
  have hpB : (swButtons s inp.instEdge inp.stepEdges).isPlaying = true := by
    rw [hb.1]
    exact hp
  have hstop := swHandlePlay_stop (swButtons s inp.instEdge inp.stepEdges) inp.now hpB
  have hflush : swFlushEvents (swButtons s inp.instEdge inp.stepEdges) =
      ((List.range 4).filterMap fun v =>
        if s.noteActive v = true then some (MidiEv.off (swNotes v) 0 0) else none) := by
    unfold swFlushEvents
    rw [hb.2.2.2.2.1]
  have hact : ∀ v, v < 4 →
      ({ swButtons s inp.instEdge inp.stepEdges with
          isPlaying := false
          stepIndex := 0
          nextStepAt := u32 inp.now
          noteActive := fun v =>
            if v < 4 ∧ (swButtons s inp.instEdge inp.stepEdges).noteActive v = true then false
            else (swButtons s inp.instEdge inp.stepEdges).noteActive v } : SwingState).noteActive v
        = false := by
    intro v hv
    dsimp only
    by_cases ha : (swButtons s inp.instEdge inp.stepEdges).noteActive v = true
    · rw [if_pos ⟨hv, ha⟩]
    · rw [if_neg (by rintro ⟨_, h2⟩; exact ha h2)]
      revert ha
      cases (swButtons s inp.instEdge inp.stepEdges).noteActive v <;> simp
  have hlen : (((List.range 4).filterMap fun v =>
      if s.noteActive v = true then some (MidiEv.off (swNotes v) 0 0) else none)).length
      = (List.range 4).countP (fun v => s.noteActive v) := by
    rw [length_filterMap_ite, List.countP_eq_length_filter]
    simp
  by_cases hsw : swStop inp.tempoRaw = true
  · have hev : (swingTick s inp).2 = swFlushEvents (swButtons s inp.instEdge inp.stepEdges) := by
      unfold swingTick
      dsimp only
      rw [hE, hstop, hsw]
      simp only [if_true]
    refine ⟨by rw [hev, hflush], by rw [hev, hflush, hlen], ?_, ?_⟩
    · intro v hv
      unfold swingTick
      dsimp only
      rw [hE, hstop, hsw]
      simp only [if_true]
      exact hact v hv
    · unfold swingTick
      dsimp only
      rw [hE, hstop, hsw]
      simp only [if_true]
  · have hsw2 : swStop inp.tempoRaw = false := by
      revert hsw
      cases swStop inp.tempoRaw <;> simp
    have hinact : ∀ v, v < 4 →
        (swWithInterval
          ({ swButtons s inp.instEdge inp.stepEdges with
              isPlaying := false
              stepIndex := 0
              nextStepAt := u32 inp.now
              noteActive := fun v =>
                if v < 4 ∧ (swButtons s inp.instEdge inp.stepEdges).noteActive v = true then false
                else (swButtons s inp.instEdge inp.stepEdges).noteActive v } : SwingState)
          (swInterval inp.tempoRaw)).noteActive v = false := hact
    have hoff := swOffEvents_all_inactive
      (swWithInterval
        ({ swButtons s inp.instEdge inp.stepEdges with
            isPlaying := false
            stepIndex := 0
            nextStepAt := u32 inp.now
            noteActive := fun v =>
              if v < 4 ∧ (swButtons s inp.instEdge inp.stepEdges).noteActive v = true then false
              else (swButtons s inp.instEdge inp.stepEdges).noteActive v } : SwingState)
        (swInterval inp.tempoRaw)) inp.now hinact
    have hev : (swingTick s inp).2 = swFlushEvents (swButtons s inp.instEdge inp.stepEdges) := by
      unfold swingTick
      dsimp only
      rw [hE, hstop, hsw2]
      simp only [Bool.false_eq_true, if_false]
      split
      case isTrue =>
        dsimp only
        rw [hoff, List.append_nil]
      case isFalse h => exact absurd rfl h
    refine ⟨by rw [hev, hflush], by rw [hev, hflush, hlen], ?_, ?_⟩
    · intro v hv
      unfold swingTick
      dsimp only
      rw [hE, hstop, hsw2]
      simp only [Bool.false_eq_true, if_false]
      split
      next => exact swAfterOff_inactive _ inp.now v (hinact v hv)
      next h => exact absurd rfl h
    · unfold swingTick
      dsimp only
      rw [hE, hstop, hsw2]
      simp only [Bool.false_eq_true, if_false]
      split
      next => rfl
      next h => exact absurd rfl h

theorem sw_stopped_tick (s : SwingState) (inp : SwingIn)
    (hp : s.isPlaying = false) (hE : inp.playEdge = false) :
    (∀ x ∈ (swingTick s inp).2, ∀ n velo c, x ≠ MidiEv.on n velo c) ∧
    (swingTick s inp).1.isPlaying = false := by
  have hb := swButtons_fields s inp.instEdge inp.stepEdges
  have hpB : (swButtons s inp.instEdge inp.stepEdges).isPlaying = false := by
    rw [hb.1]
    exact hp
  constructor
  · intro x hx n velo c
    unfold swingTick at hx
    dsimp only at hx
    rw [hE, swHandlePlay_noEdge] at hx
    split at hx
    · simp at hx
    · split at hx
      next =>
        rw [List.nil_append] at hx
        unfold swOffEvents at hx
        rw [mem_range4_filterMap] at hx
        obtain ⟨w, _, _, hf⟩ := hx
        rw [← hf]
        simp
      next h => exact absurd hpB h
  · unfold swingTick
    dsimp only
    rw [hE, swHandlePlay_noEdge]
    split
    · exact hpB
    · split
      next => exact hpB
      next h => exact absurd hpB h

theorem sw_stopped_trace :
    ∀ (inps : List SwingIn) (s : SwingState), s.isPlaying = false →
      (∀ i ∈ inps, i.playEdge = false) →
      (∀ x ∈ (runSwing s inps).2, ∀ n velo c, x ≠ MidiEv.on n velo c) ∧
      (runSwing s inps).1.isPlaying = false := by
  intro inps
  induction inps with
  | nil =>
    intro s hp _
    exact ⟨by intro x hx; simp [runSwing] at hx, hp⟩
  | cons i rest ih =>
    intro s hp hall
    have hi : i.playEdge = false := hall i (List.mem_cons_self i rest)
    have h1 := sw_stopped_tick s i hp hi
    have h2 := ih (swingTick s i).1 h1.2 (fun j hj => hall j (List.mem_cons_of_mem i hj))
    constructor
    · intro x hx n velo c
      unfold runSwing at hx
      dsimp only at hx
      rw [List.mem_append] at hx
      rcases hx with hx | hx
      · exact h1.1 x hx n velo c
      · exact h2.1 x hx n velo c
    · unfold runSwing
      dsimp only
      exact h2.2

/-- Multi-voice state: playing, voices 0 and 1 sounding. -/
def egMV2 : MVState :=
  { pattern := fun _ _ => false, currentVoice := 0, isPlaying := true,
    stepIndex := 2, stepIntervalMs := 472, nextStepAtMs := 1944,
    noteActive := fun v => decide (v = 0 ∨ v = 1), noteOffAtMs := fun _ => 1592 }

/-- Multi-voice tick input carrying a debounced play-toggle edge. -/
def egMVInPlay : MVIn :=
  { now := 1500, instEdge := false, stepEdges := fun _ => false, playEdge := true }

/-- C4 (confirmed): a debounced play-toggle edge that switches a playing
engine to stopped makes that same tick emit exactly one note-off for each
Sounding voice — the tick's whole event output is that flush list, of length
N, the number of sounding voices — leaves every voice Silent and the engine
stopped; and from a stopped state, a run of ticks with no play edge emits no
note-on and stays stopped.  Both for the multi-voice fixed-tempo sketches
and for the swing sketch. -/
theorem C4_stop_flushes :
    (∀ (notes : Nat → Nat) (ch : Nat) (s : MVState) (inp : MVIn),
      inp.playEdge = true → s.isPlaying = true →
      (mvTick notes ch s inp).2 =
        ((List.range 4).filterMap fun v =>
          if s.noteActive v = true then some (.off (notes v) 0 ch) else none) ∧
      (mvTick notes ch s inp).2.length = (List.range 4).countP (fun v => s.noteActive v) ∧
      (∀ v, v < 4 → (mvTick notes ch s inp).1.noteActive v = false) ∧
      (mvTick notes ch s inp).1.isPlaying = false) ∧
    (∀ (notes : Nat → Nat) (ch : Nat) (inps : List MVIn) (s : MVState),
      s.isPlaying = false → (∀ i ∈ inps, i.playEdge = false) →
      (∀ x ∈ (runMV notes ch s inps).2, ∀ n velo c, x ≠ MidiEv.on n velo c) ∧
      (runMV notes ch s inps).1.isPlaying = false) ∧
    (∀ (s : SwingState) (inp : SwingIn), inp.playEdge = true → s.isPlaying = true →
      (swingTick s inp).2 =
        ((List.range 4).filterMap fun v =>
          if s.noteActive v = true then some (.off (swNotes v) 0 0) else none) ∧
      (swingTick s inp).2.length = (List.range 4).countP (fun v => s.noteActive v) ∧
      (∀ v, v < 4 → (swingTick s inp).1.noteActive v = false) ∧
      (swingTick s inp).1.isPlaying = false) ∧
    (∀ (inps : List SwingIn) (s : SwingState),
      s.isPlaying = false → (∀ i ∈ inps, i.playEdge = false) →
      (∀ x ∈ (runSwing s inps).2, ∀ n velo c, x ≠ MidiEv.on n velo c) ∧
      (runSwing s inps).1.isPlaying = false) :=
  ⟨fun notes ch s inp hE hp => mv_stop_flush notes ch s inp hE hp,
   fun notes ch inps s hp hall => mv_stopped_trace notes ch inps s hp hall,
   fun s inp hE hp => sw_stop_flush s inp hE hp,
   fun inps s hp hall => sw_stopped_trace inps s hp hall⟩

theorem C4_stop_flushes_witness :
    (mvTick egNotes 0 egMV2 egMVInPlay).2.length
        = (List.range 4).countP (fun v => egMV2.noteActive v) ∧
      (mvTick egNotes 0 egMV2 egMVInPlay).1.isPlaying = false ∧
      (mvTick egNotes 0 egMV2 egMVInPlay).2 = [MidiEv.off 60 0 0, MidiEv.off 65 0 0] := by
  have h := C4_stop_flushes.1 egNotes 0 egMV2 egMVInPlay (by decide) (by decide)
  exact ⟨h.2.1, h.2.2.2, by decide⟩

theorem mv_runSeq_isPlaying (notes : Nat → Nat) (ch : Nat) (s : MVState) (now : Nat) :
    (runSequencerMV notes ch s now).1.isPlaying = s.isPlaying := by
  unfold runSequencerMV
  dsimp only
  split
  · rfl
  · split <;> rfl

theorem mv_runSeq_stepIndex_cases (notes : Nat → Nat) (ch : Nat) (s : MVState) (now : Nat) :
    (runSequencerMV notes ch s now).1.stepIndex = s.stepIndex ∨
    (runSequencerMV notes ch s now).1.stepIndex = (s.stepIndex + 1) &&& 3 := by
  unfold runSequencerMV
  dsimp only
  split
  · exact Or.inl rfl
  · split
    · exact Or.inr rfl
    · exact Or.inl rfl

theorem mvHandlePlay_stepIndex (notes : Nat → Nat) (ch : Nat) (s : MVState) (edge : Bool)
    (now : Nat) : (mvHandlePlay notes ch s edge now).1.stepIndex = s.stepIndex := by
  unfold mvHandlePlay
  split
  · split <;> rfl
  · rfl

theorem land3_lt (n : Nat) : n &&& 3 < 4 := by
  rw [land3_eq_mod]
  exact Nat.mod_lt _ (by norm_num)

theorem mv_step_advance (notes : Nat → Nat) (ch : Nat) (s : MVState) (now : Nat)
    (hp : s.isPlaying = true) (hd : i32due now s.nextStepAtMs = true) :
    (runSequencerMV notes ch s now).1.stepIndex = (s.stepIndex + 1) % 4 := by
  refine (mv_step_iff notes ch s now hp).mpr ?_
  unfold i32due at hd
  exact of_decide_eq_true hd

theorem mv_step_unchanged (notes : Nat → Nat) (ch : Nat) (s : MVState) (now : Nat)
    (h : s.isPlaying = false ∨ i32due now s.nextStepAtMs = false) :
    (runSequencerMV notes ch s now).1.stepIndex = s.stepIndex := by
  unfold runSequencerMV
  dsimp only
  rcases h with hp | hd
  · rw [if_pos (((mvAfterOff_fields s now).1).trans hp)]
    rfl
  · by_cases hp2 : (mvAfterOff s now).isPlaying = false
    · rw [if_pos hp2]
      rfl
    · have hd2 : i32due now (mvAfterOff s now).nextStepAtMs = false := by
        rw [(mvAfterOff_fields s now).2.2.2.1]
        exact hd
      rw [if_neg hp2, hd2]
      simp only [Bool.false_eq_true, if_false]
      rfl

theorem mvTick_stepIndex_lt (notes : Nat → Nat) (ch : Nat) (s : MVState) (inp : MVIn)
    (h : s.stepIndex < 4) : (mvTick notes ch s inp).1.stepIndex < 4 := by
  have hBidx : (mvButtons s inp.instEdge inp.stepEdges).stepIndex = s.stepIndex :=
    (mvButtons_fields s inp.instEdge inp.stepEdges).2.1
  have hPidx := mvHandlePlay_stepIndex notes ch (mvButtons s inp.instEdge inp.stepEdges)
    inp.playEdge inp.now
  unfold mvTick
  dsimp only
  rcases mv_runSeq_stepIndex_cases notes ch
      (mvHandlePlay notes ch (mvButtons s inp.instEdge inp.stepEdges) inp.playEdge inp.now).1
      inp.now with he | he
  · rw [he, hPidx, hBidx]
    exact h
  · rw [he]
    exact land3_lt _

theorem swHandlePlay_stepIndex_cases (s : SwingState) (edge : Bool) (now : Nat) :
    (swHandlePlay s edge now).1.stepIndex = s.stepIndex ∨
    (swHandlePlay s edge now).1.stepIndex = 0 := by
  unfold swHandlePlay
  dsimp only
  split
  · split
    · exact Or.inr rfl
    · exact Or.inr rfl
  · exact Or.inl rfl

theorem swingTick_stepIndex_lt (s : SwingState) (inp : SwingIn) (h : s.stepIndex < 4) :
    (swingTick s inp).1.stepIndex < 4 := by
  have hBidx : (swButtons s inp.instEdge inp.stepEdges).stepIndex = s.stepIndex :=
    (swButtons_fields s inp.instEdge inp.stepEdges).2.1
  have hcases := swHandlePlay_stepIndex_cases (swButtons s inp.instEdge inp.stepEdges)
    inp.playEdge inp.now
  unfold swingTick
  dsimp only
  split
  · rcases hcases with he | he
    · exact (he.trans hBidx).symm ▸ h
    · exact he.symm ▸ (by norm_num : (0 : Nat) < 4)
  · split
    · rcases hcases with he | he
      · exact (he.trans hBidx).symm ▸ h
      · exact he.symm ▸ (by norm_num : (0 : Nat) < 4)
    · split
      · exact land3_lt _
      · rcases hcases with he | he
        · exact (he.trans hBidx).symm ▸ h
        · exact he.symm ▸ (by norm_num : (0 : Nat) < 4)

theorem sw_step_advance (s : SwingState) (inp : SwingIn)
    (hplayE : inp.playEdge = false) (hstop : swStop inp.tempoRaw = false)
    (hp : s.isPlaying = true) (hd : s.nextStepAt ≤ inp.now) :
    (swingTick s inp).1.stepIndex = (s.stepIndex + 1) % 4 :=
  (sw_step_iff s inp hplayE hstop hp).mpr hd


theorem fsAfterOff_fields (s : FSState) (now : Nat) :
    (fsAfterOff s now).isPlaying = s.isPlaying ∧
    (fsAfterOff s now).stepIndex = s.stepIndex ∧
    (fsAfterOff s now).stepIntervalMs = s.stepIntervalMs ∧
    (fsAfterOff s now).nextStepAtMs = s.nextStepAtMs ∧
    (fsAfterOff s now).stepEnabled = s.stepEnabled := by
  unfold fsAfterOff
  split <;> exact ⟨rfl, rfl, rfl, rfl, rfl⟩

theorem fs_arm (s : FSState) (now : Nat) (hI : s.stepIntervalMs = 472)
    (hp : s.isPlaying = true) (hd : i32due now s.nextStepAtMs = true)
    (hen : s.stepEnabled s.stepIndex = true) :
    (runSequencerFS s now).1.noteOffAtMs = u32 (now + min 120 (472 - 10)) := by
  have hf := fsAfterOff_fields s now
  have hen2 : (fsAfterOff s now).stepEnabled ((fsAfterOff s now).stepIndex) = true := by
    rw [hf.2.2.2.2, hf.2.1]
    exact hen
  have hd2 : i32due now (fsAfterOff s now).nextStepAtMs = true := by
    rw [hf.2.2.2.1]
    exact hd
  have hg : gateClampBasic 120 472 = min 120 (472 - 10) := by decide
  have hply : ¬ ((fsAfterOff s now).isPlaying = false) := by
    rw [hf.1, hp]
    simp
  unfold runSequencerFS
  dsimp only
  rw [if_neg hply, if_pos hd2, if_pos hen2]
  show u32 (now + gateClampBasic 120 (fsAfterOff s now).stepIntervalMs) = _
  rw [hf.2.2.1, hI, hg]

theorem mv_arm (notes : Nat → Nat) (ch : Nat) (s : MVState) (now : Nat) (v : Nat)
    (hv : v < 4) (hI : s.stepIntervalMs = 472) (hp : s.isPlaying = true)
    (hd : i32due now s.nextStepAtMs = true) (hpat : s.pattern v s.stepIndex = true) :
    (runSequencerMV notes ch s now).1.noteOffAtMs v = u32 (now + min 120 (472 - 10)) := by
  have hf := mvAfterOff_fields s now
  have hd2 : i32due now (mvAfterOff s now).nextStepAtMs = true := by
    rw [hf.2.2.2.1]
    exact hd
  have hpat2 : (mvAfterOff s now).pattern v ((mvAfterOff s now).stepIndex) = true := by
    rw [hf.2.2.2.2, hf.2.1]
    exact hpat
  have hg : gateClampGuard 120 472 = min 120 (472 - 10) := by decide
  have hply : ¬ ((mvAfterOff s now).isPlaying = false) := by
    rw [hf.1, hp]
    simp
  unfold runSequencerMV
  dsimp only
  rw [if_neg hply, if_pos hd2]
  unfold mvAfterOn
  dsimp only
  rw [if_pos ⟨hv, hpat2⟩]
  show u32 (now + gateClampGuard 120 (mvAfterOff s now).stepIntervalMs) = _
  rw [hf.2.2.1, hI, hg]

theorem swButtons_pattern_noEdges (s : SwingState) (instE : Bool) (edges : Nat → Bool)
    (hinst : instE = false) (hse : ∀ i, edges i = false) (v i : Nat) :
    (swButtons s instE edges).pattern v i = s.pattern v i := by
  unfold swButtons
  dsimp only
  rw [hinst]
  simp only [Bool.false_eq_true, if_false]
  rw [if_neg]
  rintro ⟨_, _, h3⟩
  rw [hse i] at h3
  cases h3

theorem swInterval_ge (t : Nat) (ht : t ≤ 1023) (h : swStop t = false) :
    250 ≤ swInterval t := by
  unfold swStop at h
  simp only [decide_eq_false_iff_not, not_le] at h
  have ht0 : 0 < t := by omega
  unfold swInterval
  rw [Nat.le_div_iff_mul_le ht0]
  omega

theorem sw_arm (s : SwingState) (inp : SwingIn) (v : Nat) (hv : v < 4)
    (htraw : inp.tempoRaw ≤ 1023) (hstop : swStop inp.tempoRaw = false)
    (hinst : inp.instEdge = false) (hse : ∀ i, inp.stepEdges i = false)
    (hplayE : inp.playEdge = false) (hp : s.isPlaying = true)
    (hd : s.nextStepAt ≤ inp.now) (hpat : s.pattern v s.stepIndex = true) :
    (swingTick s inp).1.noteOffAt v
        = u32 (inp.now + min 60 (swInterval inp.tempoRaw - 10)) ∧
      0 < min 60 (swInterval inp.tempoRaw - 10) ∧
      min 60 (swInterval inp.tempoRaw - 10) < swInterval inp.tempoRaw := by
  have hIg := swInterval_ge inp.tempoRaw htraw hstop
  have hmin : min 60 (swInterval inp.tempoRaw - 10) = 60 := by omega
  have hb := swButtons_fields s inp.instEdge inp.stepEdges
  have hpat2 : (swButtons s inp.instEdge inp.stepEdges).pattern v
      ((swButtons s inp.instEdge inp.stepEdges).stepIndex) = true := by
    rw [hb.2.1, swButtons_pattern_noEdges s inp.instEdge inp.stepEdges hinst hse]
    exact hpat
  have hply : ¬ ((swAfterOff (swWithInterval (swButtons s inp.instEdge inp.stepEdges)
      (swInterval inp.tempoRaw)) inp.now).isPlaying = false) := by
    intro h
    exact Bool.noConfusion ((hb.1.trans hp).symm.trans h)
  have hdue2 : (swAfterOff (swWithInterval (swButtons s inp.instEdge inp.stepEdges)
      (swInterval inp.tempoRaw)) inp.now).nextStepAt ≤ inp.now :=
    le_of_eq_of_le hb.2.2.2.1 hd
  have hpat3 : (swAfterOff (swWithInterval (swButtons s inp.instEdge inp.stepEdges)
        (swInterval inp.tempoRaw)) inp.now).pattern v
      ((swAfterOff (swWithInterval (swButtons s inp.instEdge inp.stepEdges)
        (swInterval inp.tempoRaw)) inp.now).stepIndex) = true := hpat2
  refine ⟨?_, by omega, by omega⟩
  unfold swingTick
  dsimp only
  rw [hplayE, swHandlePlay_noEdge, hstop]
  simp only [Bool.false_eq_true, if_false]
  rw [if_neg hply, if_pos hdue2]
  unfold swAfterOn
  dsimp only
  rw [if_pos ⟨hv, hpat3⟩, hmin]

/-- C1 (confirmed): at every step boundary at which a sketch emits a note-on
at time `now`, the armed note-off deadline equals `now + min(gate,
stepInterval - 10)` for the values the sketches actually run with.  In the
fixed-tempo sketches the interval is 60000 / 127 = 472 ms and the gate base
120 ms, so the armed deadline is `now + min 120 (472 - 10)`; in the swing
sketch the gate is 60 ms and the freshly computed interval is at least
250 ms, so the armed deadline is `now + min 60 (interval - 10)`.  The
clamped value is positive (the non-positive fallback is never exercised) and
smaller than the step interval, so the scheduled duration never reaches the
next scheduled step. -/
theorem C1_gate_deadline :
    (∀ (s : FSState) (now : Nat), s.stepIntervalMs = 472 → s.isPlaying = true →
      i32due now s.nextStepAtMs = true → s.stepEnabled s.stepIndex = true →
      (runSequencerFS s now).1.noteOffAtMs = u32 (now + min 120 (472 - 10)) ∧
      0 < min 120 (472 - 10) ∧ min 120 (472 - 10) < 472) ∧
    (∀ (notes : Nat → Nat) (ch : Nat) (s : MVState) (now : Nat) (v : Nat), v < 4 →
      s.stepIntervalMs = 472 → s.isPlaying = true → i32due now s.nextStepAtMs = true →
      s.pattern v s.stepIndex = true →
      (runSequencerMV notes ch s now).1.noteOffAtMs v = u32 (now + min 120 (472 - 10))) ∧
    (∀ (s : SwingState) (inp : SwingIn) (v : Nat), v < 4 → inp.tempoRaw ≤ 1023 →
      swStop inp.tempoRaw = false → inp.instEdge = false → (∀ i, inp.stepEdges i = false) →
      inp.playEdge = false → s.isPlaying = true → s.nextStepAt ≤ inp.now →
      s.pattern v s.stepIndex = true →
      (swingTick s inp).1.noteOffAt v
          = u32 (inp.now + min 60 (swInterval inp.tempoRaw - 10)) ∧
        0 < min 60 (swInterval inp.tempoRaw - 10) ∧
        min 60 (swInterval inp.tempoRaw - 10) < swInterval inp.tempoRaw) :=
  ⟨fun s now hI hp hd hen => ⟨fs_arm s now hI hp hd hen, by omega, by omega⟩,
   fun notes ch s now v hv hI hp hd hpat => mv_arm notes ch s now v hv hI hp hd hpat,
   fun s inp v hv htraw hstop hinst hse hplayE hp hd hpat =>
     sw_arm s inp v hv htraw hstop hinst hse hplayE hp hd hpat⟩

theorem C1_gate_deadline_witness :
    (runSequencerMV egNotes 0 egMVOn 1000).1.noteOffAtMs 0
      = u32 (1000 + min 120 (472 - 10)) :=
  C1_gate_deadline.2.1 egNotes 0 egMVOn 1000 0 (by decide) (by decide) (by decide)
    (by decide) (by decide)

theorem abs_qtrunc_le (q : ℚ) : ((|qtrunc q| : Int) : ℚ) ≤ |q| := by
  unfold qtrunc
  by_cases h : 0 ≤ q
  · rw [if_pos h]
    have hf0 : 0 ≤ ⌊q⌋ := Int.floor_nonneg.mpr h
    rw [abs_of_nonneg hf0, abs_of_nonneg h]
    exact_mod_cast Int.floor_le q
  · rw [if_neg h]
    push_neg at h
    have h2 : 0 ≤ -q := by linarith
    have hf0 : 0 ≤ ⌊-q⌋ := Int.floor_nonneg.mpr h2
    rw [abs_neg, abs_of_nonneg hf0, abs_of_neg h]
    exact_mod_cast Int.floor_le (-q)

theorem swRatioQ_bound (raw : Nat) (h : raw ≤ 1023) : |swRatioQ raw| ≤ 3 / 5 := by
  unfold swRatioQ
  have h0 : (0 : ℚ) ≤ (raw : ℚ) := Nat.cast_nonneg raw
  have h1 : (raw : ℚ) ≤ 1023 := by exact_mod_cast h
  rw [abs_mul, abs_div]
  have h2 : |((raw : ℚ) - 512)| ≤ 512 := abs_le.mpr ⟨by linarith, by linarith⟩
  have h3 : |(512 : ℚ)| = 512 := by norm_num
  have h4 : |(3 / 5 : ℚ)| = 3 / 5 := by norm_num
  rw [h3, h4]
  have h5 : |((raw : ℚ) - 512)| / 512 ≤ 1 := by
    rw [div_le_one (by norm_num : (0 : ℚ) < 512)]
    linarith
  nlinarith [abs_nonneg ((raw : ℚ) - 512)]

/-- C9 (confirmed): with base interval `B` and swing ratio `r` held fixed
across a step pair (`|r| ≤ 0.6`, the sketch's `MAX_SWING_RATIO` bound, and
`B ≥ 1` ms as the code's floor guarantees), the delta armed after an
even-indexed step is `B` minus the truncated offset `B * r` and after an
odd-indexed step `B` plus that same offset — the 1 ms floor never engages —
so consecutive even and odd deltas sum to exactly `2 * B`, regardless of the
sign of `r` and within the claimed 1 ms tolerance.  The sketch's integer
offset computation agrees with the truncated rational product, and any pot
reading at most 1023 yields a ratio within the `0.6` bound. -/
theorem C9_swing_symmetry (B : Nat) (r : ℚ) (hB : 1 ≤ B) (hr : |r| ≤ 3 / 5) :
    swingDelta 0 (B : Int) (qtrunc ((B : ℚ) * r)) = (B : Int) - qtrunc ((B : ℚ) * r) ∧
    swingDelta 1 (B : Int) (qtrunc ((B : ℚ) * r)) = (B : Int) + qtrunc ((B : ℚ) * r) ∧
    swingDelta 0 (B : Int) (qtrunc ((B : ℚ) * r))
        + swingDelta 1 (B : Int) (qtrunc ((B : ℚ) * r)) = 2 * (B : Int) ∧
    (∀ raw : Nat, swOffset (B : Int) raw = qtrunc ((B : ℚ) * swRatioQ raw)) ∧
    (∀ raw : Nat, raw ≤ 1023 → |swRatioQ raw| ≤ 3 / 5) := by
  have hoB : |qtrunc ((B : ℚ) * r)| < (B : Int) := by
    have h1 : ((|qtrunc ((B : ℚ) * r)| : Int) : ℚ) ≤ |(B : ℚ) * r| := abs_qtrunc_le _
    have h2 : |(B : ℚ) * r| = (B : ℚ) * |r| := by
      rw [abs_mul, abs_of_nonneg (Nat.cast_nonneg B)]
    have h3 : (B : ℚ) * |r| ≤ (B : ℚ) * (3 / 5) :=
      mul_le_mul_of_nonneg_left hr (Nat.cast_nonneg B)
    have hB1 : (1 : ℚ) ≤ (B : ℚ) := by exact_mod_cast hB
    have h4 : (B : ℚ) * (3 / 5) < (B : ℚ) := by nlinarith
    have h5 : ((|qtrunc ((B : ℚ) * r)| : Int) : ℚ) < (B : ℚ) := by linarith
    exact_mod_cast h5
  have habs := abs_lt.mp hoB
  have hd0 : swingDelta 0 (B : Int) (qtrunc ((B : ℚ) * r))
      = (B : Int) - qtrunc ((B : ℚ) * r) := by
    have h1 : ¬ ((B : Int) - qtrunc ((B : ℚ) * r) < 1) := by omega
    unfold swingDelta
    dsimp only
    rw [if_pos (by norm_num : (0 : Nat) % 2 = 0), if_neg h1]
  have hd1 : swingDelta 1 (B : Int) (qtrunc ((B : ℚ) * r))
      = (B : Int) + qtrunc ((B : ℚ) * r) := by
    have h1 : ¬ ((B : Int) + qtrunc ((B : ℚ) * r) < 1) := by omega
    unfold swingDelta
    dsimp only
    rw [if_neg (by norm_num : ¬ ((1 : Nat) % 2 = 0)), if_neg h1]
  refine ⟨hd0, hd1, by rw [hd0, hd1]; ring, fun raw => swOffset_eq B raw, swRatioQ_bound⟩

theorem C9_swing_symmetry_witness :
    swingDelta 0 ((250 : Nat) : Int) (qtrunc (((250 : Nat) : ℚ) * (3 / 10)))
        + swingDelta 1 ((250 : Nat) : Int) (qtrunc (((250 : Nat) : ℚ) * (3 / 10)))
      = 2 * ((250 : Nat) : Int) :=
  (C9_swing_symmetry 250 (3 / 10) (by norm_num) (by rw [abs_of_nonneg] <;> norm_num)).2.2.1

theorem offInj (notes : Nat → Nat) (ch : Nat)
    (hinj : ∀ a, a < 4 → ∀ b, b < 4 → notes a = notes b → a = b) :
    ∀ a, a < 4 → ∀ b, b < 4 →
      MidiEv.off (notes a) 0 ch = MidiEv.off (notes b) 0 ch → a = b := by
  intro a ha b hb he
  injection he with h1 h2 h3
  exact hinj a ha b hb h1

theorem onInj (notes : Nat → Nat) (ch : Nat)
    (hinj : ∀ a, a < 4 → ∀ b, b < 4 → notes a = notes b → a = b) :
    ∀ a, a < 4 → ∀ b, b < 4 →
      MidiEv.on (notes a) 110 ch = MidiEv.on (notes b) 110 ch → a = b := by
  intro a ha b hb he
  injection he with h1 h2 h3
  exact hinj a ha b hb h1

theorem mvOffEvents_count (notes : Nat → Nat) (ch : Nat)
    (hinj : ∀ a, a < 4 → ∀ b, b < 4 → notes a = notes b → a = b)
    (s : MVState) (now : Nat) (v : Nat) (hv : v < 4) :
    (mvOffEvents notes ch s now).count (MidiEv.off (notes v) 0 ch)
      = if s.noteActive v = true ∧ i32due now (s.noteOffAtMs v) = true then 1 else 0 := by
  unfold mvOffEvents
  exact count_range4_filterMap (fun w => MidiEv.off (notes w) 0 ch)
    (fun w => s.noteActive w = true ∧ i32due now (s.noteOffAtMs w) = true) v hv
    (offInj notes ch hinj)

theorem mvOnEvents_count (notes : Nat → Nat) (ch : Nat)
    (hinj : ∀ a, a < 4 → ∀ b, b < 4 → notes a = notes b → a = b)
    (s : MVState) (v : Nat) (hv : v < 4) :
    (mvOnEvents notes ch s).count (MidiEv.on (notes v) 110 ch)
      = if s.pattern v s.stepIndex = true then 1 else 0 := by
  unfold mvOnEvents
  exact count_range4_filterMap (fun w => MidiEv.on (notes w) 110 ch)
    (fun w => s.pattern w s.stepIndex = true) v hv (onInj notes ch hinj)

theorem mvOffEvents_count_on (notes : Nat → Nat) (ch : Nat) (s : MVState) (now : Nat)
    (n k c : Nat) : (mvOffEvents notes ch s now).count (MidiEv.on n k c) = 0 := by
  rw [List.count_eq_zero]
  intro h
  unfold mvOffEvents at h
  rw [mem_range4_filterMap] at h
  obtain ⟨u, hu, hP, he⟩ := h
  exact MidiEv.noConfusion he

theorem mvOnEvents_count_off (notes : Nat → Nat) (ch : Nat) (s : MVState)
    (n k c : Nat) : (mvOnEvents notes ch s).count (MidiEv.off n k c) = 0 := by
  rw [List.count_eq_zero]
  intro h
  unfold mvOnEvents at h
  rw [mem_range4_filterMap] at h
  obtain ⟨u, hu, hP, he⟩ := h
  exact MidiEv.noConfusion he

theorem mvFlush_count_off (notes : Nat → Nat) (ch : Nat)
    (hinj : ∀ a, a < 4 → ∀ b, b < 4 → notes a = notes b → a = b)
    (s : MVState) (v : Nat) (hv : v < 4) :
    (((List.range 4).filterMap fun w =>
        if s.noteActive w = true then some (MidiEv.off (notes w) 0 ch) else none)).count
      (MidiEv.off (notes v) 0 ch) = if s.noteActive v = true then 1 else 0 :=
  count_range4_filterMap (fun w => MidiEv.off (notes w) 0 ch)
    (fun w => s.noteActive w = true) v hv (offInj notes ch hinj)

theorem mv_runSeq_counts (notes : Nat → Nat) (ch : Nat)
    (hinj : ∀ a, a < 4 → ∀ b, b < 4 → notes a = notes b → a = b)
    (s : MVState) (now : Nat) (v : Nat) (hv : v < 4) :
    (runSequencerMV notes ch s now).2.count (MidiEv.off (notes v) 0 ch) ≤ 1 ∧
      (runSequencerMV notes ch s now).2.count (MidiEv.on (notes v) 110 ch) ≤ 1 := by
  have hoffc := mvOffEvents_count notes ch hinj s now v hv
  have honz := mvOffEvents_count_on notes ch s now (notes v) 110 ch
  unfold runSequencerMV
  dsimp only
  by_cases h1 : (mvAfterOff s now).isPlaying = false
  · rw [if_pos h1]
    dsimp only
    exact ⟨by rw [hoffc]; split <;> omega, by rw [honz]; omega⟩
  · rw [if_neg h1]
    by_cases h2 : i32due now (mvAfterOff s now).nextStepAtMs = true
    · rw [if_pos h2]
      dsimp only
      constructor
      · rw [List.count_append, hoffc,
          mvOnEvents_count_off notes ch (mvAfterOff s now) (notes v) 0 ch]
        split <;> omega
      · rw [List.count_append, honz, mvOnEvents_count notes ch hinj (mvAfterOff s now) v hv]
        split <;> omega
    · rw [if_neg h2]
      dsimp only
      exact ⟨by rw [hoffc]; split <;> omega, by rw [honz]; omega⟩

theorem mv_runSeq_on_active (notes : Nat → Nat) (ch : Nat)
    (hinj : ∀ a, a < 4 → ∀ b, b < 4 → notes a = notes b → a = b)
    (s : MVState) (now : Nat) (v : Nat) (hv : v < 4)
    (h : MidiEv.on (notes v) 110 ch ∈ (runSequencerMV notes ch s now).2) :
    (runSequencerMV notes ch s now).1.noteActive v = true := by
  have honz := mvOffEvents_count_on notes ch s now (notes v) 110 ch
  unfold runSequencerMV at h ⊢
  dsimp only at h ⊢
  by_cases h1 : (mvAfterOff s now).isPlaying = false
  · rw [if_pos h1] at h
    dsimp only at h
    exact absurd h (List.count_eq_zero.mp honz)
  · rw [if_neg h1] at h ⊢
    by_cases h2 : i32due now (mvAfterOff s now).nextStepAtMs = true
    · rw [if_pos h2] at h ⊢
      dsimp only at h ⊢
      rw [List.mem_append] at h
      rcases h with h | h
      · exact absurd h (List.count_eq_zero.mp honz)
      · unfold mvOnEvents at h
        rw [mem_range4_filterMap] at h
        obtain ⟨w, hw, hp, he⟩ := h
        have hwv : w = v := hinj w hw v hv (by injection he)
        unfold mvAfterOn
        dsimp only
        rw [if_pos ⟨hv, hwv ▸ hp⟩]
    · rw [if_neg h2] at h
      dsimp only at h
      exact absurd h (List.count_eq_zero.mp honz)

theorem mv_runSeq_off_silent (notes : Nat → Nat) (ch : Nat)
    (hinj : ∀ a, a < 4 → ∀ b, b < 4 → notes a = notes b → a = b)
    (s : MVState) (now : Nat) (v : Nat) (hv : v < 4)
    (hoff : MidiEv.off (notes v) 0 ch ∈ (runSequencerMV notes ch s now).2)
    (hon : MidiEv.on (notes v) 110 ch ∉ (runSequencerMV notes ch s now).2) :
    (runSequencerMV notes ch s now).1.noteActive v = false := by
  have hact : MidiEv.off (notes v) 0 ch ∈ mvOffEvents notes ch s now →
      (mvAfterOff s now).noteActive v = false := by
    intro hmem
    unfold mvOffEvents at hmem
    rw [mem_range4_filterMap] at hmem
    obtain ⟨w, hw, hP, he⟩ := hmem
    have hwv : w = v := hinj w hw v hv (by injection he)
    unfold mvAfterOff
    dsimp only
    rw [if_pos ⟨hv, hwv ▸ hP⟩]
  unfold runSequencerMV at hoff hon ⊢
  dsimp only at hoff hon ⊢
  by_cases h1 : (mvAfterOff s now).isPlaying = false
  · rw [if_pos h1] at hoff ⊢
    dsimp only at hoff ⊢
    exact hact hoff
  · rw [if_neg h1] at hoff hon ⊢
    by_cases h2 : i32due now (mvAfterOff s now).nextStepAtMs = true
    · rw [if_pos h2] at hoff hon ⊢
      dsimp only at hoff hon ⊢
      rw [List.mem_append] at hoff hon
      obtain ⟨hon1, hon2⟩ := not_or.mp hon
      have hpat : ¬ ((mvAfterOff s now).pattern v (mvAfterOff s now).stepIndex = true) := by
        intro hp
        apply hon2
        unfold mvOnEvents
        rw [mem_range4_filterMap]
        exact ⟨v, hv, hp, rfl⟩
      unfold mvAfterOn
      dsimp only
      rw [if_neg (fun hc => hpat hc.2)]
      rcases hoff with hoff | hoff
      · exact hact hoff
      · exact absurd hoff
          (List.count_eq_zero.mp (mvOnEvents_count_off notes ch (mvAfterOff s now) (notes v) 0 ch))
    · rw [if_neg h2] at hoff ⊢
      dsimp only at hoff ⊢
      exact hact hoff

theorem mv_stop_count (notes : Nat → Nat) (ch : Nat)
    (hinj : ∀ a, a < 4 → ∀ b, b < 4 → notes a = notes b → a = b)
    (s : MVState) (inp : MVIn) (v : Nat) (hv : v < 4)
    (hE : inp.playEdge = true) (hp : s.isPlaying = true) :
    (mvTick notes ch s inp).2.count (MidiEv.off (notes v) 0 ch)
      = if s.noteActive v = true then 1 else 0 := by
  rw [(mv_stop_flush notes ch s inp hE hp).1]
  exact mvFlush_count_off notes ch hinj s v hv

theorem sw_tempo_stop_noop (s : SwingState) (inp : SwingIn)
    (hp : inp.playEdge = false) (ht : swStop inp.tempoRaw = true) :
    (swingTick s inp).2 = [] ∧
      ∀ v, (swingTick s inp).1.noteActive v = s.noteActive v := by
  unfold swingTick
  dsimp only
  rw [hp, swHandlePlay_noEdge, if_pos ht]
  refine ⟨rfl, fun v => ?_⟩
  rw [(swButtons_fields s inp.instEdge inp.stepEdges).2.2.2.2.1]

/-- Swing state playing, voice 0 enabled on step 0, step due at 1000 ms. -/
def egC2 : SwingState :=
  { pattern := fun v s => decide (v = 0) && decide (s = 0), currentVoice := 0,
    isPlaying := true, stepIndex := 0, nextStepAt := 1000, stepIntervalMs := 250,
    noteActive := fun _ => false, noteOffAt := fun _ => 0 }

/-- Quiet swing tick at 1000 ms with the tempo pot fully up, swing centred. -/
def egC2In1 : SwingIn :=
  { now := 1000, instEdge := false, stepEdges := fun _ => false, playEdge := false,
    tempoRaw := 1023, swingRaw := 512 }

/-- Quiet swing tick at 2000 ms with the tempo pot at zero. -/
def egC2In2 : SwingIn :=
  { now := 2000, instEdge := false, stepEdges := fun _ => false, playEdge := false,
    tempoRaw := 0, swingRaw := 512 }

/-- Quiet swing tick at 4000000 ms with the tempo pot still at zero. -/
def egC2In3 : SwingIn :=
  { now := 4000000, instEdge := false, stepEdges := fun _ => false, playEdge := false,
    tempoRaw := 0, swingRaw := 512 }

/-- C2 counterexample: the swing sketch emits a note-on that is never
followed by a note-off.  Voice 0 fires at 1000 ms (gate deadline 1060 ms);
the tempo pot then reads 0, and because the `bpm <= 0.5` early return sits
before the note-off pass, the ticks at 2000 ms and 4000000 ms — both long
past the deadline — emit nothing: the whole trace holds exactly one note-on,
zero note-offs, and leaves the voice still sounding. -/
theorem C2_counterexample :
    (runSwing egC2 [egC2In1, egC2In2, egC2In3]).2 = [MidiEv.on 36 110 0] ∧
      (runSwing egC2 [egC2In1, egC2In2, egC2In3]).2.count (MidiEv.off 36 0 0) = 0 ∧
      (runSwing egC2 [egC2In1, egC2In2, egC2In3]).1.noteActive 0 = true ∧
      (runSwing egC2 [egC2In1, egC2In2, egC2In3]).1.noteOffAt 0 ≤ 4000000 := by
  decide



theorem fs_runSeq_isPlaying (s : FSState) (now : Nat) :
    (runSequencerFS s now).1.isPlaying = s.isPlaying := by
  unfold runSequencerFS
  dsimp only
  split
  · exact (fsAfterOff_fields s now).1
  · split
    · split <;> exact (fsAfterOff_fields s now).1
    · exact (fsAfterOff_fields s now).1

theorem fs_runSeq_stepIndex_cases (s : FSState) (now : Nat) :
    (runSequencerFS s now).1.stepIndex = s.stepIndex ∨
    (runSequencerFS s now).1.stepIndex = (s.stepIndex + 1) &&& 3 := by
  unfold runSequencerFS
  dsimp only
  split
  · exact Or.inl (fsAfterOff_fields s now).2.1
  · split
    · split
      · refine Or.inr ?_
        show ((fsAfterOff s now).stepIndex + 1) &&& 3 = (s.stepIndex + 1) &&& 3
        rw [(fsAfterOff_fields s now).2.1]
      · refine Or.inr ?_
        show ((fsAfterOff s now).stepIndex + 1) &&& 3 = (s.stepIndex + 1) &&& 3
        rw [(fsAfterOff_fields s now).2.1]
    · exact Or.inl (fsAfterOff_fields s now).2.1

theorem fsHandlePlay_stepIndex (s : FSState) (edge : Bool) (now : Nat) :
    (fsHandlePlay s edge now).1.stepIndex = s.stepIndex := by
  unfold fsHandlePlay
  split
  · split
    · rfl
    · split <;> rfl
  · rfl

theorem fs_step_iff (s : FSState) (now : Nat) (hp : s.isPlaying = true) :
    (runSequencerFS s now).1.stepIndex = (s.stepIndex + 1) % 4 ↔
      0 ≤ toInt32 (u32sub now s.nextStepAtMs) := by
  have hne : ¬ (s.stepIndex = (s.stepIndex + 1) % 4) := by omega
  have hply : ¬ ((fsAfterOff s now).isPlaying = false) := by
    rw [(fsAfterOff_fields s now).1, hp]
    simp
  unfold runSequencerFS
  dsimp only
  rw [if_neg hply]
  by_cases hd : 0 ≤ toInt32 (u32sub now s.nextStepAtMs)
  · have hdt : i32due now (fsAfterOff s now).nextStepAtMs = true := by
      rw [(fsAfterOff_fields s now).2.2.2.1]
      unfold i32due
      exact decide_eq_true hd
    rw [hdt]
    simp only [if_true]
    refine iff_of_true ?_ hd
    split
    · show ((fsAfterOff s now).stepIndex + 1) &&& 3 = (s.stepIndex + 1) % 4
      rw [(fsAfterOff_fields s now).2.1, land3_eq_mod]
    · show ((fsAfterOff s now).stepIndex + 1) &&& 3 = (s.stepIndex + 1) % 4
      rw [(fsAfterOff_fields s now).2.1, land3_eq_mod]
  · have hdf : i32due now (fsAfterOff s now).nextStepAtMs = false := by
      rw [(fsAfterOff_fields s now).2.2.2.1]
      unfold i32due
      exact decide_eq_false hd
    rw [hdf]
    simp only [Bool.false_eq_true, if_false]
    refine iff_of_false ?_ hd
    show ¬ ((fsAfterOff s now).stepIndex = (s.stepIndex + 1) % 4)
    rw [(fsAfterOff_fields s now).2.1]
    exact hne

theorem fs_step_advance (s : FSState) (now : Nat) (hp : s.isPlaying = true)
    (hd : i32due now s.nextStepAtMs = true) :
    (runSequencerFS s now).1.stepIndex = (s.stepIndex + 1) % 4 := by
  refine (fs_step_iff s now hp).mpr ?_
  unfold i32due at hd
  exact of_decide_eq_true hd

theorem fs_step_unchanged (s : FSState) (now : Nat)
    (h : s.isPlaying = false ∨ i32due now s.nextStepAtMs = false) :
    (runSequencerFS s now).1.stepIndex = s.stepIndex := by
  unfold runSequencerFS
  dsimp only
  rcases h with hp | hd
  · rw [if_pos (((fsAfterOff_fields s now).1).trans hp)]
    exact (fsAfterOff_fields s now).2.1
  · by_cases hp2 : (fsAfterOff s now).isPlaying = false
    · rw [if_pos hp2]
      exact (fsAfterOff_fields s now).2.1
    · have hd2 : i32due now (fsAfterOff s now).nextStepAtMs = false := by
        rw [(fsAfterOff_fields s now).2.2.2.1]
        exact hd
      rw [if_neg hp2, hd2]
      simp only [Bool.false_eq_true, if_false]
      exact (fsAfterOff_fields s now).2.1

theorem fsTick_stepIndex_lt (s : FSState) (inp : FSIn)
    (h : s.stepIndex < 4) : (fsTick s inp).1.stepIndex < 4 := by
  have hBidx : (fsButtons s inp.stepEdges).stepIndex = s.stepIndex :=
    (fsButtons_fields s inp.stepEdges).2.1
  have hPidx := fsHandlePlay_stepIndex (fsButtons s inp.stepEdges) inp.playEdge inp.now
  unfold fsTick
  dsimp only
  rcases fs_runSeq_stepIndex_cases
      (fsHandlePlay (fsButtons s inp.stepEdges) inp.playEdge inp.now).1 inp.now with he | he
  · rw [he, hPidx, hBidx]
    exact h
  · rw [he]
    exact land3_lt _

theorem fs_runSeq_stopped (s : FSState) (now : Nat) (hp : s.isPlaying = false) :
    runSequencerFS s now = (fsAfterOff s now, fsOffEvents s now) := by
  unfold runSequencerFS
  dsimp only
  rw [if_pos (((fsAfterOff_fields s now).1).trans hp)]

theorem fsOffEvents_inactive (s : FSState) (now : Nat) (h : s.noteActive = false) :
    fsOffEvents s now = [] := by
  unfold fsOffEvents
  rw [if_neg (fun hc => absurd hc.1 (by simp [h]))]

theorem fsOffEvents_silences (s : FSState) (now : Nat)
    (h : MidiEv.off 36 0 9 ∈ fsOffEvents s now) :
    (fsAfterOff s now).noteActive = false := by
  by_cases hc : s.noteActive = true ∧ i32due now s.noteOffAtMs = true
  · unfold fsAfterOff
    rw [if_pos hc]
  · unfold fsOffEvents at h
    rw [if_neg hc] at h
    simp at h

theorem fs_runSeq_counts (s : FSState) (now : Nat) :
    (runSequencerFS s now).2.count (MidiEv.off 36 0 9) ≤ 1 ∧
      (runSequencerFS s now).2.count (MidiEv.on 36 110 9) ≤ 1 := by
  have hoffc : (fsOffEvents s now).count (MidiEv.off 36 0 9) ≤ 1 := by
    unfold fsOffEvents
    split <;> decide
  have honz : (fsOffEvents s now).count (MidiEv.on 36 110 9) = 0 := by
    unfold fsOffEvents
    split <;> decide
  unfold runSequencerFS
  dsimp only
  by_cases h1 : (fsAfterOff s now).isPlaying = false
  · rw [if_pos h1]
    exact ⟨hoffc, by rw [honz]; omega⟩
  · rw [if_neg h1]
    by_cases h2 : i32due now (fsAfterOff s now).nextStepAtMs = true
    · rw [if_pos h2]
      by_cases h3 : (fsAfterOff s now).stepEnabled (fsAfterOff s now).stepIndex = true
      · rw [if_pos h3]
        dsimp only
        constructor
        · rw [List.count_append]
          have hz : ([MidiEv.on 36 110 9]).count (MidiEv.off 36 0 9) = 0 := by decide
          rw [hz]
          omega
        · rw [List.count_append, honz]
          decide
      · rw [if_neg h3]
        exact ⟨hoffc, by rw [honz]; omega⟩
    · rw [if_neg h2]
      exact ⟨hoffc, by rw [honz]; omega⟩

theorem fs_runSeq_on_active (s : FSState) (now : Nat)
    (h : MidiEv.on 36 110 9 ∈ (runSequencerFS s now).2) :
    (runSequencerFS s now).1.noteActive = true := by
  have honm : MidiEv.on 36 110 9 ∉ fsOffEvents s now := by
    unfold fsOffEvents
    split <;> simp
  unfold runSequencerFS at h ⊢
  dsimp only at h ⊢
  by_cases h1 : (fsAfterOff s now).isPlaying = false
  · rw [if_pos h1] at h
    exact absurd h honm
  · rw [if_neg h1] at h ⊢
    by_cases h2 : i32due now (fsAfterOff s now).nextStepAtMs = true
    · rw [if_pos h2] at h ⊢
      by_cases h3 : (fsAfterOff s now).stepEnabled (fsAfterOff s now).stepIndex = true
      · rw [if_pos h3]
      · rw [if_neg h3] at h
        exact absurd h honm
    · rw [if_neg h2] at h
      exact absurd h honm

theorem fs_runSeq_off_silent (s : FSState) (now : Nat)
    (hoff : MidiEv.off 36 0 9 ∈ (runSequencerFS s now).2)
    (hon : MidiEv.on 36 110 9 ∉ (runSequencerFS s now).2) :
    (runSequencerFS s now).1.noteActive = false := by
  unfold runSequencerFS at hoff hon ⊢
  dsimp only at hoff hon ⊢
  by_cases h1 : (fsAfterOff s now).isPlaying = false
  · rw [if_pos h1] at hoff ⊢
    exact fsOffEvents_silences s now hoff
  · rw [if_neg h1] at hoff hon ⊢
    by_cases h2 : i32due now (fsAfterOff s now).nextStepAtMs = true
    · rw [if_pos h2] at hoff hon ⊢
      by_cases h3 : (fsAfterOff s now).stepEnabled (fsAfterOff s now).stepIndex = true
      · rw [if_pos h3] at hon
        dsimp only at hon
        rw [List.mem_append] at hon
        exact absurd (Or.inr (by simp)) hon
      · rw [if_neg h3] at hoff ⊢
        exact fsOffEvents_silences s now hoff
    · rw [if_neg h2] at hoff ⊢
      exact fsOffEvents_silences s now hoff

theorem fs_stop_count (s : FSState) (inp : FSIn)
    (hE : inp.playEdge = true) (hp : s.isPlaying = true) :
    (fsTick s inp).2.count (MidiEv.off 36 0 9)
      = if s.noteActive = true then 1 else 0 := by
  have hpB : (fsButtons s inp.stepEdges).isPlaying = true :=
    ((fsButtons_fields s inp.stepEdges).1).trans hp
  unfold fsTick
  dsimp only
  rw [hE]
  by_cases ha : s.noteActive = true
  · have haB : (fsButtons s inp.stepEdges).noteActive = true :=
      ((fsButtons_fields s inp.stepEdges).2.2.2.2.1).trans ha
    rw [fsHandlePlay_stop_active (fsButtons s inp.stepEdges) inp.now hpB haB]
    dsimp only
    rw [fs_runSeq_stopped _ _ rfl]
    dsimp only
    rw [fsOffEvents_inactive _ _ rfl, if_pos ha]
    decide
  · have ha' : s.noteActive = false := by
      revert ha
      cases s.noteActive <;> simp
    have haB : (fsButtons s inp.stepEdges).noteActive = false :=
      ((fsButtons_fields s inp.stepEdges).2.2.2.2.1).trans ha'
    rw [fsHandlePlay_stop_silent (fsButtons s inp.stepEdges) inp.now hpB ha']
    dsimp only
    rw [fs_runSeq_stopped _ _ rfl]
    dsimp only
    rw [if_neg ha]
    simp [fsOffEvents, haB]

/-- C5 (amended): in the fixed-tempo sketches every deadline check — the
per-voice off-deadline and the next-step deadline, in both the single-voice
and the multi-voice sequencer — fires exactly when `(int32_t)(now -
deadline) >= 0`, the wraparound-safe signed-difference test; the swing
sketch instead compares `now >= deadline` directly on the unsigned counter
for both of its checks, which is not wraparound-safe. -/
theorem C5_deadline_comparisons_amended :
    (∀ (s : FSState) (now : Nat),
      MidiEv.off 36 0 9 ∈ (runSequencerFS s now).2 ↔
        s.noteActive = true ∧ 0 ≤ toInt32 (u32sub now s.noteOffAtMs)) ∧
    (∀ (s : FSState) (now : Nat), s.isPlaying = true →
      ((runSequencerFS s now).1.stepIndex = (s.stepIndex + 1) % 4 ↔
        0 ≤ toInt32 (u32sub now s.nextStepAtMs))) ∧
    (∀ (notes : Nat → Nat) (ch : Nat) (s : MVState) (now : Nat) (v : Nat), v < 4 →
      (∀ a, a < 4 → ∀ b, b < 4 → notes a = notes b → a = b) →
      (MidiEv.off (notes v) 0 ch ∈ (runSequencerMV notes ch s now).2 ↔
        s.noteActive v = true ∧ 0 ≤ toInt32 (u32sub now (s.noteOffAtMs v)))) ∧
    (∀ (notes : Nat → Nat) (ch : Nat) (s : MVState) (now : Nat), s.isPlaying = true →
      ((runSequencerMV notes ch s now).1.stepIndex = (s.stepIndex + 1) % 4 ↔
        0 ≤ toInt32 (u32sub now s.nextStepAtMs))) ∧
    (∀ (s : SwingState) (now : Nat) (v : Nat), v < 4 →
      (MidiEv.off (swNotes v) 0 0 ∈ swOffEvents s now ↔
        s.noteActive v = true ∧ s.noteOffAt v ≤ now)) ∧
    (∀ (s : SwingState) (inp : SwingIn), inp.playEdge = false →
      swStop inp.tempoRaw = false → s.isPlaying = true →
      ((swingTick s inp).1.stepIndex = (s.stepIndex + 1) % 4 ↔ s.nextStepAt ≤ inp.now)) :=
  ⟨fs_off_iff,
   fun s now hp => fs_step_iff s now hp,
   fun notes ch s now v hv hinj => mv_off_iff notes ch s now v hv hinj,
   fun notes ch s now hp => mv_step_iff notes ch s now hp,
   fun s now v hv => sw_off_iff s now v hv,
   fun s inp hplayE hstop hp => sw_step_iff s inp hplayE hstop hp⟩

theorem C5_deadline_comparisons_amended_witness :
    MidiEv.off 36 0 9 ∈ (runSequencerFS egFS 1200).2 :=
  (C5_deadline_comparisons_amended.1 egFS 1200).mpr ⟨by decide, by decide⟩

theorem fs_cycle_from_zero (s0 : FSState) (n1 n2 n3 n4 : Nat)
    (hp0 : s0.isPlaying = true) (hidx0 : s0.stepIndex = 0)
    (hd1 : i32due n1 s0.nextStepAtMs = true)
    (hd2 : i32due n2 (runSequencerFS s0 n1).1.nextStepAtMs = true)
    (hd3 : i32due n3 (runSequencerFS (runSequencerFS s0 n1).1 n2).1.nextStepAtMs = true)
    (hd4 : i32due n4 (runSequencerFS (runSequencerFS
      (runSequencerFS s0 n1).1 n2).1 n3).1.nextStepAtMs = true) :
    (runSequencerFS s0 n1).1.stepIndex = 1 ∧
    (runSequencerFS (runSequencerFS s0 n1).1 n2).1.stepIndex = 2 ∧
    (runSequencerFS (runSequencerFS (runSequencerFS s0 n1).1 n2).1 n3).1.stepIndex = 3 ∧
    (runSequencerFS (runSequencerFS (runSequencerFS
      (runSequencerFS s0 n1).1 n2).1 n3).1 n4).1.stepIndex = 0 := by
  have hp1 : (runSequencerFS s0 n1).1.isPlaying = true := by
    rw [fs_runSeq_isPlaying]
    exact hp0
  have h1 : (runSequencerFS s0 n1).1.stepIndex = 1 := by
    rw [fs_step_advance s0 n1 hp0 hd1, hidx0]
  have hp2 : (runSequencerFS (runSequencerFS s0 n1).1 n2).1.isPlaying = true := by
    rw [fs_runSeq_isPlaying]
    exact hp1
  have h2 : (runSequencerFS (runSequencerFS s0 n1).1 n2).1.stepIndex = 2 := by
    rw [fs_step_advance _ n2 hp1 hd2, h1]
  have hp3 : (runSequencerFS (runSequencerFS
      (runSequencerFS s0 n1).1 n2).1 n3).1.isPlaying = true := by
    rw [fs_runSeq_isPlaying]
    exact hp2
  have h3 : (runSequencerFS (runSequencerFS
      (runSequencerFS s0 n1).1 n2).1 n3).1.stepIndex = 3 := by
    rw [fs_step_advance _ n3 hp2 hd3, h2]
  have h4 : (runSequencerFS (runSequencerFS (runSequencerFS
      (runSequencerFS s0 n1).1 n2).1 n3).1 n4).1.stepIndex = 0 := by
    rw [fs_step_advance _ n4 hp3 hd4, h3]
  exact ⟨h1, h2, h3, h4⟩

/-- C6 (confirmed): the step index starts below 4 and every tick of each
sketch keeps it in `[0, 4)`; a due step while playing advances it by exactly
1 modulo 4 (the code's `(stepIndex + 1) & 0x03`), a non-due tick or a
stopped engine leaves it unchanged, and from step 0 four consecutive
due-step events visit 1, 2, 3 and return to 0 in that order — stated for the
single-voice sequencer, the multi-voice sequencer and the swing tick, with
the four-event cycle proven for both fixed-tempo sequencer models. -/
theorem C6_step_cycle :
    (∀ (s : FSState) (now : Nat),
      s.isPlaying = true → i32due now s.nextStepAtMs = true →
      (runSequencerFS s now).1.stepIndex = (s.stepIndex + 1) % 4) ∧
    (∀ (s : FSState) (now : Nat),
      s.isPlaying = false ∨ i32due now s.nextStepAtMs = false →
      (runSequencerFS s now).1.stepIndex = s.stepIndex) ∧
    (∀ (s : FSState) (inp : FSIn),
      s.stepIndex < 4 → (fsTick s inp).1.stepIndex < 4) ∧
    (∀ (notes : Nat → Nat) (ch : Nat) (s : MVState) (now : Nat),
      s.isPlaying = true → i32due now s.nextStepAtMs = true →
      (runSequencerMV notes ch s now).1.stepIndex = (s.stepIndex + 1) % 4) ∧
    (∀ (notes : Nat → Nat) (ch : Nat) (s : MVState) (now : Nat),
      s.isPlaying = false ∨ i32due now s.nextStepAtMs = false →
      (runSequencerMV notes ch s now).1.stepIndex = s.stepIndex) ∧
    (∀ (notes : Nat → Nat) (ch : Nat) (s : MVState) (inp : MVIn),
      s.stepIndex < 4 → (mvTick notes ch s inp).1.stepIndex < 4) ∧
    (∀ (s : SwingState) (inp : SwingIn), s.stepIndex < 4 →
      (swingTick s inp).1.stepIndex < 4) ∧
    (∀ (s : SwingState) (inp : SwingIn), inp.playEdge = false →
      swStop inp.tempoRaw = false → s.isPlaying = true → s.nextStepAt ≤ inp.now →
      (swingTick s inp).1.stepIndex = (s.stepIndex + 1) % 4) ∧
    (∀ (s0 : FSState) (n1 n2 n3 n4 : Nat),
      s0.isPlaying = true → s0.stepIndex = 0 →
      i32due n1 s0.nextStepAtMs = true →
      i32due n2 (runSequencerFS s0 n1).1.nextStepAtMs = true →
      i32due n3 (runSequencerFS (runSequencerFS s0 n1).1 n2).1.nextStepAtMs = true →
      i32due n4 (runSequencerFS (runSequencerFS
        (runSequencerFS s0 n1).1 n2).1 n3).1.nextStepAtMs = true →
      (runSequencerFS s0 n1).1.stepIndex = 1 ∧
      (runSequencerFS (runSequencerFS s0 n1).1 n2).1.stepIndex = 2 ∧
      (runSequencerFS (runSequencerFS (runSequencerFS s0 n1).1 n2).1 n3).1.stepIndex = 3 ∧
      (runSequencerFS (runSequencerFS (runSequencerFS
        (runSequencerFS s0 n1).1 n2).1 n3).1 n4).1.stepIndex = 0) ∧
    (∀ (notes : Nat → Nat) (ch : Nat) (s0 : MVState) (n1 n2 n3 n4 : Nat),
      s0.isPlaying = true → s0.stepIndex = 0 →
      i32due n1 s0.nextStepAtMs = true →
      i32due n2 (runSequencerMV notes ch s0 n1).1.nextStepAtMs = true →
      i32due n3 (runSequencerMV notes ch
        (runSequencerMV notes ch s0 n1).1 n2).1.nextStepAtMs = true →
      i32due n4 (runSequencerMV notes ch (runSequencerMV notes ch
        (runSequencerMV notes ch s0 n1).1 n2).1 n3).1.nextStepAtMs = true →
      (runSequencerMV notes ch s0 n1).1.stepIndex = 1 ∧
      (runSequencerMV notes ch (runSequencerMV notes ch s0 n1).1 n2).1.stepIndex = 2 ∧
      (runSequencerMV notes ch (runSequencerMV notes ch
        (runSequencerMV notes ch s0 n1).1 n2).1 n3).1.stepIndex = 3 ∧
      (runSequencerMV notes ch (runSequencerMV notes ch (runSequencerMV notes ch
        (runSequencerMV notes ch s0 n1).1 n2).1 n3).1 n4).1.stepIndex = 0) := by
  refine ⟨fun s now hp hd => fs_step_advance s now hp hd,
    fun s now h => fs_step_unchanged s now h,
    fun s inp h => fsTick_stepIndex_lt s inp h,
    fun notes ch s now hp hd => mv_step_advance notes ch s now hp hd,
    fun notes ch s now h => mv_step_unchanged notes ch s now h,
    fun notes ch s inp h => mvTick_stepIndex_lt notes ch s inp h,
    fun s inp h => swingTick_stepIndex_lt s inp h,
    fun s inp hE hstop hp hd => sw_step_advance s inp hE hstop hp hd,
    fun s0 n1 n2 n3 n4 hp0 hidx0 hd1 hd2 hd3 hd4 =>
      fs_cycle_from_zero s0 n1 n2 n3 n4 hp0 hidx0 hd1 hd2 hd3 hd4,
    ?_⟩
  intro notes ch s0 n1 n2 n3 n4 hp0 hidx0 hd1 hd2 hd3 hd4
  have hp1 : (runSequencerMV notes ch s0 n1).1.isPlaying = true := by
    rw [mv_runSeq_isPlaying]
    exact hp0
  have h1 : (runSequencerMV notes ch s0 n1).1.stepIndex = 1 := by
    rw [mv_step_advance notes ch s0 n1 hp0 hd1, hidx0]
  have hp2 : (runSequencerMV notes ch (runSequencerMV notes ch s0 n1).1 n2).1.isPlaying
      = true := by
    rw [mv_runSeq_isPlaying]
    exact hp1
  have h2 : (runSequencerMV notes ch (runSequencerMV notes ch s0 n1).1 n2).1.stepIndex
      = 2 := by
    rw [mv_step_advance notes ch _ n2 hp1 hd2, h1]
  have hp3 : (runSequencerMV notes ch (runSequencerMV notes ch
      (runSequencerMV notes ch s0 n1).1 n2).1 n3).1.isPlaying = true := by
    rw [mv_runSeq_isPlaying]
    exact hp2
  have h3 : (runSequencerMV notes ch (runSequencerMV notes ch
      (runSequencerMV notes ch s0 n1).1 n2).1 n3).1.stepIndex = 3 := by
    rw [mv_step_advance notes ch _ n3 hp2 hd3, h2]
  have h4 : (runSequencerMV notes ch (runSequencerMV notes ch (runSequencerMV notes ch
      (runSequencerMV notes ch s0 n1).1 n2).1 n3).1 n4).1.stepIndex = 0 := by
    rw [mv_step_advance notes ch _ n4 hp3 hd4, h3]
  exact ⟨h1, h2, h3, h4⟩

theorem C6_step_cycle_witness :
    (runSequencerMV egNotes 0 egMVOn 1000).1.stepIndex = 1 ∧
    (runSequencerMV egNotes 0 (runSequencerMV egNotes 0 egMVOn 1000).1 1472).1.stepIndex = 2 ∧
    (runSequencerMV egNotes 0 (runSequencerMV egNotes 0
      (runSequencerMV egNotes 0 egMVOn 1000).1 1472).1 1944).1.stepIndex = 3 ∧
    (runSequencerMV egNotes 0 (runSequencerMV egNotes 0 (runSequencerMV egNotes 0
      (runSequencerMV egNotes 0 egMVOn 1000).1 1472).1 1944).1 2416).1.stepIndex = 0 :=
  C6_step_cycle.2.2.2.2.2.2.2.2.2 egNotes 0 egMVOn 1000 1472 1944 2416
    (by decide) (by decide) (by decide) (by decide) (by decide) (by decide)

/-- C2 (corrected): the pairing invariant holds per loop pass in both
fixed-tempo sequencers — each pass emits at most one note-on and at most one
note-off per voice, a pass emitting a note-on for a voice leaves it
sounding, a pass emitting a note-off and no note-on for a voice leaves it
silent, and a stop toggle emits exactly one note-off per sounding voice
(stated for the multi-voice machine and for the single-voice sketch's one
voice, note 36 on channel 9) — but the swing sketch breaks the global
invariant: while the tempo pot reads stopped, a quiet tick returns before
the note-off pass, emitting nothing and leaving every voice's sounding flag
untouched, so a note-on can go without its note-off indefinitely
(`C2_counterexample`). -/
theorem C2_note_pairing_amended (notes : Nat → Nat) (ch : Nat)
    (hinj : ∀ a, a < 4 → ∀ b, b < 4 → notes a = notes b → a = b) :
    (∀ (s : MVState) (now v : Nat), v < 4 →
      (runSequencerMV notes ch s now).2.count (MidiEv.off (notes v) 0 ch) ≤ 1 ∧
        (runSequencerMV notes ch s now).2.count (MidiEv.on (notes v) 110 ch) ≤ 1) ∧
    (∀ (s : MVState) (now v : Nat), v < 4 →
      MidiEv.on (notes v) 110 ch ∈ (runSequencerMV notes ch s now).2 →
      (runSequencerMV notes ch s now).1.noteActive v = true) ∧
    (∀ (s : MVState) (now v : Nat), v < 4 →
      MidiEv.off (notes v) 0 ch ∈ (runSequencerMV notes ch s now).2 →
      MidiEv.on (notes v) 110 ch ∉ (runSequencerMV notes ch s now).2 →
      (runSequencerMV notes ch s now).1.noteActive v = false) ∧
    (∀ (s : MVState) (inp : MVIn) (v : Nat), v < 4 →
      inp.playEdge = true → s.isPlaying = true →
      (mvTick notes ch s inp).2.count (MidiEv.off (notes v) 0 ch)
        = if s.noteActive v = true then 1 else 0) ∧
    (∀ (s : SwingState) (inp : SwingIn), inp.playEdge = false →
      swStop inp.tempoRaw = true →
      (swingTick s inp).2 = [] ∧
        ∀ v, (swingTick s inp).1.noteActive v = s.noteActive v) ∧
    (∀ (s : FSState) (now : Nat),
      (runSequencerFS s now).2.count (MidiEv.off 36 0 9) ≤ 1 ∧
        (runSequencerFS s now).2.count (MidiEv.on 36 110 9) ≤ 1) ∧
    (∀ (s : FSState) (now : Nat),
      MidiEv.on 36 110 9 ∈ (runSequencerFS s now).2 →
      (runSequencerFS s now).1.noteActive = true) ∧
    (∀ (s : FSState) (now : Nat),
      MidiEv.off 36 0 9 ∈ (runSequencerFS s now).2 →
      MidiEv.on 36 110 9 ∉ (runSequencerFS s now).2 →
      (runSequencerFS s now).1.noteActive = false) ∧
    (∀ (s : FSState) (inp : FSIn), inp.playEdge = true → s.isPlaying = true →
      (fsTick s inp).2.count (MidiEv.off 36 0 9)
        = if s.noteActive = true then 1 else 0) :=
  ⟨fun s now v hv => mv_runSeq_counts notes ch hinj s now v hv,
   fun s now v hv h => mv_runSeq_on_active notes ch hinj s now v hv h,
   fun s now v hv hoff hon => mv_runSeq_off_silent notes ch hinj s now v hv hoff hon,
   fun s inp v hv hE hp => mv_stop_count notes ch hinj s inp v hv hE hp,
   fun s inp hp ht => sw_tempo_stop_noop s inp hp ht,
   fun s now => fs_runSeq_counts s now,
   fun s now h => fs_runSeq_on_active s now h,
   fun s now hoff hon => fs_runSeq_off_silent s now hoff hon,
   fun s inp hE hp => fs_stop_count s inp hE hp⟩

theorem C2_note_pairing_amended_witness :
    (mvTick egNotes 0 egMV2 egMVInPlay).2.count (MidiEv.off (egNotes 0) 0 0)
      = if egMV2.noteActive 0 = true then 1 else 0 :=
  (C2_note_pairing_amended egNotes 0 (by decide)).2.2.2.1 egMV2 egMVInPlay 0
    (by decide) (by decide) (by decide)
